import Mathlib

/-!
A shallow embedding of `power_gadget.c`

The program samples the RAPL energy counters at a fixed cadence and prints one
CSV-like row of power values per tick.  This file embeds the functions of
`src/power_gadget.c` as Lean definitions and proves properties of them.

Conventions of the embedding:

* a C `double` is an exact rational (`ℚ`): no rounding, no NaN, no infinity;
* `uint64_t` values are naturals, reduced modulo `2 ^ 64` where the source can
  overflow; the `int` loop index of the node loops is a natural;
* text written to `stdout` is a `String`; the `printf` conversions used by the
  source (`%d`, `%lu`, `%.4lf`, `%s`) are the functions `fmt_d`, `fmt_lu`,
  `fmt_4lf` and string concatenation;
* what the outside world answers (clock reads, counter reads, frequency reads,
  `localtime`, `atoi`, `atof`, `init_rapl`) is an explicit argument;
* `getopt` keeps a state between its calls; `cmdline_at` takes that state and
  returns the one it leaves, and `cmdline` is the first call in a process;
* the sampling loop consumes a list of ticks, one element per iteration; a
  list that ends before the loop breaks leaves the loop unfinished.
-/

namespace PowerGadget

/-! ## Declarations of `rapl.h` -/

/-- Modelled from the spec: `rapl.h` is absent; the domains are the indices
`0 .. RAPL_NR_DOMAIN - 1` in the order Package, PP0, PP1, DRAM. -/
def RAPL_PKG : Nat := 0

/-- Modelled from the spec: `rapl.h` is absent; PP0 is the second domain. -/
def RAPL_PP0 : Nat := 1

/-- Modelled from the spec: `rapl.h` is absent; PP1 is the third domain. -/
def RAPL_PP1 : Nat := 2

/-- Modelled from the spec: `rapl.h` is absent; DRAM is the fourth domain. -/
def RAPL_DRAM : Nat := 3

/-- Modelled from the spec: `rapl.h` is absent; there are four domains. -/
def RAPL_NR_DOMAIN : Nat := 4

/-- Modelled from the spec: `rapl.h` is absent; the `switch` labels `PKG`, `PP0`,
`PP1`, `DRAM` of `get_rapl_energy_info` name the same four indices. -/
def PKG : Nat := 0

/-- Modelled from the spec: `rapl.h` is absent; see `PKG`. -/
def PP0 : Nat := 1

/-- Modelled from the spec: `rapl.h` is absent; see `PKG`. -/
def PP1 : Nat := 2

/-- Modelled from the spec: `rapl.h` is absent; see `PKG`. -/
def DRAM : Nat := 3

/-- The part of the RAPL backend that the program sees as constants: the two
macros of `rapl.h` whose values the spec does not fix, and the (stable) answer
of `is_supported_domain`. -/
structure Rapl where
  /-- The macro `MAX_ENERGY_STATUS_JOULES`. -/
  MAX_ENERGY_STATUS_JOULES : ℚ
  /-- The macro `MY_ERROR`. -/
  MY_ERROR : Int
  /-- The answer of `is_supported_domain (domain)`. -/
  is_supported_domain : Nat → Bool

/-! ## Text: the `printf` and `strftime` conversions the source uses -/

/-- The conversion `%lu` of an unsigned value: decimal digits, no padding. -/
def fmt_lu (n : Nat) : String := Nat.repr n

/-- The conversion `%d`: a minus sign for a negative value, then the decimal
digits of the magnitude, no padding. -/
def fmt_d (n : Int) : String :=
  if n < 0 then "-" ++ Nat.repr n.natAbs else Nat.repr n.toNat

/-- The two-digit, zero-padded field of `strftime` (`%H`, `%M`, `%S`). -/
def fmt_02 (n : Nat) : String :=
  if n < 10 then "0" ++ Nat.repr n else Nat.repr n

/-- Digits of `n`, zero-padded on the left to at least `w` characters. -/
def zeroPad (w : Nat) (n : Nat) : String :=
  String.mk (List.replicate (w - (Nat.repr n).length) '0') ++ Nat.repr n

/-- The value `|q| * 10 ^ 4` rounded to the nearest integer, ties to even. -/
def scaled4 (q : ℚ) : Nat :=
  let n := q.num.natAbs * 10000
  let d := q.den
  let k := n / d
  let r := n % d
  if 2 * r > d then k + 1
  else if 2 * r = d then (if k % 2 = 0 then k else k + 1)
  else k

/-- The conversion `%.4lf`: sign, integer part, a point and four decimals. -/
def fmt_4lf (q : ℚ) : String :=
  (if q < 0 then "-" else "") ++ Nat.repr (scaled4 q / 10000) ++ "." ++
    zeroPad 4 (scaled4 q % 10000)

/-! ## Time -/

/-- The C `struct timeval`. -/
structure Timeval where
  tv_sec : Int
  tv_usec : Int

/-- The fields of `struct tm` that `%H:%M:%S` reads, with the ranges the C
standard gives them. -/
structure Tm where
  tm_hour : Fin 24
  tm_min : Fin 60
  tm_sec : Fin 61

/-- The function `strftime (tmp_buf, 9, "%H:%M:%S", timeinfo)`: eight characters,
which fit the nine-byte buffer. -/
def strftime_HMS (timeinfo : Tm) : String :=
  fmt_02 timeinfo.tm_hour.val ++ ":" ++ fmt_02 timeinfo.tm_min.val ++ ":" ++
    fmt_02 timeinfo.tm_sec.val

/-- The function `convert_time_to_string`; `localtime` is the C library's. -/
def convert_time_to_string (localtime : Int → Tm) (tv : Timeval) : String :=
  let sec := tv.tv_sec
  let timeinfo := localtime sec
  let msec := Int.tdiv tv.tv_usec 1000
  let tmp_buf := strftime_HMS timeinfo
  tmp_buf ++ ":" ++ fmt_d msec

/-- The function `convert_time_to_sec`. -/
def convert_time_to_sec (tv : Timeval) : ℚ :=
  (tv.tv_sec : ℚ) + (tv.tv_usec : ℚ) / 1000000

/-! ## Energy reads -/

/-- What the four counter-read functions of the RAPL backend answer, per node,
during one round of reads: `get_pkg_total_energy_consumed`,
`get_pp0_total_energy_consumed`, `get_pp1_total_energy_consumed` and
`get_dram_total_energy_consumed`. -/
structure Readings where
  pkg : Nat → ℚ
  pp0 : Nat → ℚ
  pp1 : Nat → ℚ
  dram : Nat → ℚ

/-- The function `get_rapl_energy_info`.  The `default` case returns the
uninitialised local; it is written `0` here and is never reached by the loops,
whose domain index stays below `RAPL_NR_DOMAIN`. -/
def get_rapl_energy_info (r : Readings) (power_domain node : Nat) : ℚ :=
  if power_domain = PKG then r.pkg node
  else if power_domain = PP0 then r.pp0 node
  else if power_domain = PP1 then r.pp1 node
  else if power_domain = DRAM then r.dram node
  else 0

/-! ## The sampling engine: `do_print_energy_info` -/

/-- The globals `num_node`, `delay_us` and `duration`. -/
structure Config where
  num_node : Nat
  delay_us : Nat
  duration : ℚ

/-- A two-dimensional array of doubles, indexed `[node][domain]`. -/
abbrev Grid := Nat → Nat → ℚ

/-- The assignment `a[i][j] = v`. -/
def Grid.set (a : Grid) (i j : Nat) (v : ℚ) : Grid :=
  fun i2 j2 => if i2 = i ∧ j2 = j then v else a i2 j2

/-- The arrays `prev_sample` and `power_watt` of `do_print_energy_info`, and a
record `delta_log` of the value the local `delta` has after the wraparound
correction in the iteration of each `[node][domain]`. -/
structure Samples where
  prev_sample : Grid
  power_watt : Grid
  delta_log : Grid

/-- Header text of one node: the body of the header loop. -/
def header_node (R : Rapl) (i : Nat) : String :=
  "IA Frequency_" ++ fmt_d i ++ " (MHz)," ++
  (if R.is_supported_domain RAPL_PKG then "Processor Power_" ++ fmt_d i ++ " (Watt)," else "") ++
  (if R.is_supported_domain RAPL_PP0 then "IA Power_" ++ fmt_d i ++ " (Watt)," else "") ++
  (if R.is_supported_domain RAPL_PP1 then "GT Power_" ++ fmt_d i ++ " (Watt)," else "") ++
  (if R.is_supported_domain RAPL_DRAM then "DRAM Power_" ++ fmt_d i ++ " (Watt)," else "")

/-- The header line: what the source prints under `Print header`. -/
def print_header (R : Rapl) (num_node : Nat) : String :=
  "System Time,Elapsed Time (sec)," ++
    String.join ((List.range num_node).map (header_node R)) ++ "\n"

/-- Body of the inner seeding loop, one `domain` of node `i`. -/
def seed_domain (R : Rapl) (r : Readings) (i : Nat) (s : Samples) (domain : Nat) : Samples :=
  if R.is_supported_domain domain then
    { s with prev_sample := s.prev_sample.set i domain (get_rapl_energy_info r domain i) }
  else s

/-- The loops under `Read initial values`. -/
def seed_all (R : Rapl) (num_node : Nat) (r : Readings) (s : Samples) : Samples :=
  (List.range num_node).foldl
    (fun s i => (List.range RAPL_NR_DOMAIN).foldl (seed_domain R r i) s) s

/-- Body of the inner sampling loop, one `domain` of node `i`: read, subtract,
correct a negative difference, store the new sample, divide by the interval. -/
def sample_domain (R : Rapl) (r : Readings) (interval_elapsed_time : ℚ) (i : Nat)
    (s : Samples) (domain : Nat) : Samples :=
  if R.is_supported_domain domain then
    let new_sample := get_rapl_energy_info r domain i
    let delta := new_sample - s.prev_sample i domain
    let delta := if delta < 0 then delta + R.MAX_ENERGY_STATUS_JOULES else delta
    { prev_sample := s.prev_sample.set i domain new_sample
      power_watt := s.power_watt.set i domain (delta / interval_elapsed_time)
      delta_log := s.delta_log.set i domain delta }
  else s

/-- The two nested sampling loops of one tick. -/
def sample_all (R : Rapl) (num_node : Nat) (r : Readings) (interval_elapsed_time : ℚ)
    (s : Samples) : Samples :=
  (List.range num_node).foldl
    (fun s i => (List.range RAPL_NR_DOMAIN).foldl (sample_domain R r interval_elapsed_time i) s) s

/-- Row text of one node: the frequency, then the power of each supported domain. -/
def row_node (R : Rapl) (freq : Nat → Nat) (power_watt : Grid) (i : Nat) : String :=
  fmt_lu (freq i) ++ "," ++
    String.join ((List.range RAPL_NR_DOMAIN).map fun domain =>
      if R.is_supported_domain domain then fmt_4lf (power_watt i domain) ++ "," else "")

/-- One data row: the two leading fields, the fields of every node, a newline. -/
def print_row (R : Rapl) (num_node : Nat) (time_buffer : String) (total_elapsed_time : ℚ)
    (freq : Nat → Nat) (power_watt : Grid) : String :=
  time_buffer ++ "," ++ fmt_4lf total_elapsed_time ++ "," ++
    String.join ((List.range num_node).map (row_node R freq power_watt)) ++ "\n"

/-- What the outside world answers during one iteration of the sampling loop. -/
structure Tick where
  /-- The `gettimeofday` after the `usleep`. -/
  tv_start : Timeval
  /-- The counter reads of this iteration. -/
  energy : Readings
  /-- The second `gettimeofday`, the reported timestamp. -/
  tv_end : Timeval
  /-- The answers of `get_pp0_freq_mhz`, per node. -/
  freq : Nat → Nat

/-- The locals that live across iterations. -/
structure LoopState where
  samples : Samples
  start : ℚ
  end_time : ℚ

/-- What one iteration computes and prints. -/
structure TickOut where
  interval_elapsed_time : ℚ
  total_elapsed_time : ℚ
  delta : Grid
  power_watt : Grid
  row : String

/-- One iteration of the `while (1)` loop, up to and including the row. -/
def tick (R : Rapl) (localtime : Int → Tm) (cfg : Config) (st : LoopState) (t : Tick) :
    LoopState × TickOut :=
  let interval_start := convert_time_to_sec t.tv_start
  let interval_elapsed_time := interval_start - st.end_time
  let samples := sample_all R cfg.num_node t.energy interval_elapsed_time st.samples
  let end_time := convert_time_to_sec t.tv_end
  let total_elapsed_time := end_time - st.start
  let time_buffer := convert_time_to_string localtime t.tv_end
  ({ samples := samples, start := st.start, end_time := end_time },
   { interval_elapsed_time := interval_elapsed_time
     total_elapsed_time := total_elapsed_time
     delta := samples.delta_log
     power_watt := samples.power_watt
     row := print_row R cfg.num_node time_buffer total_elapsed_time t.freq samples.power_watt })

/-- The `while (1)` loop: an iteration per tick, left by the `break` once
`total_elapsed_time >= duration`.  The boolean tells whether the loop was left. -/
def sampling_loop (R : Rapl) (localtime : Int → Tm) (cfg : Config) :
    LoopState → List Tick → List TickOut × Bool
  | _, [] => ([], false)
  | st, t :: ts =>
    let step := tick R localtime cfg st t
    if step.2.total_elapsed_time ≥ cfg.duration then ([step.2], true)
    else
      let r := sampling_loop R localtime cfg step.1 ts
      (step.2 :: r.1, r.2)

/-- What the outside world answers during one call of `do_print_energy_info`. -/
structure Session where
  /-- The indeterminate initial contents of the two arrays. -/
  junk : Samples
  /-- The counter reads of the seeding loops. -/
  seed : Readings
  /-- The `gettimeofday` that gives `start`. -/
  tv0 : Timeval
  /-- The iterations of the sampling loop. -/
  ticks : List Tick

/-- What `do_print_energy_info` does: the header, the iterations, and whether
the loop was left. -/
structure Output where
  header : String
  ticks : List TickOut
  finished : Bool

/-- The state in which the sampling loop is entered. -/
def seeded (R : Rapl) (cfg : Config) (w : Session) : LoopState :=
  { samples := seed_all R cfg.num_node w.seed w.junk
    start := convert_time_to_sec w.tv0
    end_time := convert_time_to_sec w.tv0 }

/-- The function `do_print_energy_info`. -/
def do_print_energy_info (R : Rapl) (localtime : Int → Tm) (cfg : Config) (w : Session) :
    Output :=
  let r := sampling_loop R localtime cfg (seeded R cfg w) w.ticks
  { header := print_header R cfg.num_node, ticks := r.1, finished := r.2 }

/-- Everything `do_print_energy_info` writes to `stdout`. -/
def Output.text (o : Output) : String :=
  o.header ++ String.join (o.ticks.map TickOut.row)

/-! ## The command line: `getopt`, `usage`, `cmdline` -/

/-- What the C library answers: `atoi`, `atof` and `localtime`. -/
structure Libc where
  /-- The function `atoi`; its value is an `int`. -/
  atoi : String → Int
  /-- The function `atof`, as the number it reads. -/
  atof : String → ℚ
  /-- The function `localtime`. -/
  localtime : Int → Tm

/-- One return of `getopt`: the option character it returns and `optarg`. -/
structure GetoptRet where
  opt : Char
  optarg : String

/-- The state `getopt` keeps between its calls (its static `optind` and its
position inside the current element): the characters of the current `argv`
element it has yet to scan, and the `argv` elements after that one. -/
structure GetoptState where
  nextchar : List Char
  rest : List String
deriving DecidableEq

/-- The state of `getopt` before its first call in a process (`optind = 1`):
nothing scanned yet, all of `argv` after `argv[0]` to scan. -/
def getopt_start (argv : List String) : GetoptState :=
  { nextchar := [], rest := argv.tail }

/-- Looks a character up in an `optstring`: `none` when it is no option
character, otherwise whether a colon follows it (the option takes an argument). -/
def optLookup : List Char → Char → Option Bool
  | [], _ => none
  | x :: rest, c =>
    if x = c ∧ c ≠ ':' then some (decide (rest.head? = some ':')) else optLookup rest c

/-- The returns of `getopt` for the characters of one `argv` element after its
leading dash, each with the state `getopt` is left in (`rest` being the `argv`
elements after this one), and the option that still waits for the next element
as its argument.  An unknown character gives `?`. -/
def getopt_cluster (optstring : List Char) (rest : List String) :
    List Char → List (GetoptRet × GetoptState) × Option Char
  | [] => ([], none)
  | c :: cs =>
    match optLookup optstring c with
    | none =>
      let r := getopt_cluster optstring rest cs
      ((⟨'?', ""⟩, ⟨cs, rest⟩) :: r.1, r.2)
    | some false =>
      let r := getopt_cluster optstring rest cs
      ((⟨c, ""⟩, ⟨cs, rest⟩) :: r.1, r.2)
    | some true =>
      if cs = [] then ([], some c) else ([(⟨c, String.mk cs⟩, ⟨[], rest⟩)], none)

/-- The successive returns of `getopt (argc, argv, optstring)` before its next
`-1`, each with the state `getopt` is left in, for the `argv` elements still to
scan, as GNU `getopt` does by default: an element that is no option is passed
over, `--` ends the scan, a missing argument gives `?`. -/
def getopt_scan (optstring : List Char) :
    Option Char → List String → List (GetoptRet × GetoptState)
  | none, [] => []
  | some _, [] => [(⟨'?', ""⟩, ⟨[], []⟩)]
  | some c, a :: rest => (⟨c, a⟩, ⟨[], rest⟩) :: getopt_scan optstring none rest
  | none, a :: rest =>
    if a = "--" then []
    else
      match a.toList with
      | '-' :: c :: cs =>
        let r := getopt_cluster optstring rest (c :: cs)
        r.1 ++ getopt_scan optstring r.2 rest
      | _ => getopt_scan optstring none rest

/-- The state `getopt` is left in when it returns `-1`: at the end of `argv`
nothing is left to scan; after `--` the elements behind it are, for a later
call, what is still to scan. -/
def getopt_end (optstring : List Char) : Option Char → List String → GetoptState
  | none, [] => ⟨[], []⟩
  | some _, [] => ⟨[], []⟩
  | some _, _ :: rest => getopt_end optstring none rest
  | none, a :: rest =>
    if a = "--" then ⟨[], rest⟩
    else
      match a.toList with
      | '-' :: c :: cs => getopt_end optstring (getopt_cluster optstring rest (c :: cs)).2 rest
      | _ => getopt_end optstring none rest

/-- The successive returns of `getopt` before its next `-1`, from a given state. -/
def getopt_returns (optstring : List Char) (st : GetoptState) :
    List (GetoptRet × GetoptState) :=
  let r := getopt_cluster optstring st.rest st.nextchar
  r.1 ++ getopt_scan optstring r.2 st.rest

/-- The state `getopt` is left in by its next return of `-1`, from a given state. -/
def getopt_final (optstring : List Char) (st : GetoptState) : GetoptState :=
  getopt_end optstring (getopt_cluster optstring st.rest st.nextchar).2 st.rest

/-- The global `version`. -/
def version : String := "2.5"

/-- The function `usage`: the text it prints. -/
def usage (progname : String) : String :=
  "\nIntel(r) Power Gadget " ++ version ++ "\n" ++
  "\nUsage: \n" ++
  progname ++ " [-e [sampling delay (ms) ] optional] -d [duration (sec)]\n" ++
  "\nExample: " ++ progname ++ " -e 1000 -d 10\n" ++
  "\n"

/-- The conversion of an `int` to `uint64_t`. -/
def to_uint64 (v : Int) : Nat := (v % 2 ^ 64).toNat

/-- How `cmdline` ends: by `return`, or by `exit` of the whole process. -/
inductive Outcome where
  | returned (ret : Int)
  | exited (status : Int)
deriving DecidableEq, Repr

/-- What a call of `cmdline` leaves: how it ended, the globals, the text
printed, and the state of `getopt`. -/
structure CmdResult where
  outcome : Outcome
  cfg : Config
  out : String
  getopt_state : GetoptState

/-- The `while`/`switch` of `cmdline`, over the successive returns of `getopt`
(each with the state `getopt` is left in); `final` is the state `getopt` is left
in when it returns `-1`. -/
def cmdline_opts (L : Libc) (progname : String) (final : GetoptState) :
    Config → List (GetoptRet × GetoptState) → CmdResult
  | cfg, [] => ⟨Outcome.returned 0, cfg, "", final⟩
  | cfg, g :: gs =>
    if g.1.opt = 'e' then
      let delay_ms_temp := to_uint64 (L.atoi g.1.optarg)
      if delay_ms_temp > 50 then
        cmdline_opts L progname final
          { cfg with delay_us := (delay_ms_temp * 1000) % 2 ^ 64 } gs
      else
        ⟨Outcome.returned (-1), cfg, "Sampling delay must be greater than 50 ms.\n", g.2⟩
    else if g.1.opt = 'd' then
      let cfg := { cfg with duration := L.atof g.1.optarg }
      if cfg.duration ≤ 0 then
        ⟨Outcome.returned (-1), cfg, "Duration must be greater than 0 seconds.\n", g.2⟩
      else cmdline_opts L progname final cfg gs
    else if g.1.opt = 'h' then
      ⟨Outcome.exited 0, cfg, usage progname, g.2⟩
    else
      ⟨Outcome.returned (-1), cfg, usage progname, g.2⟩

/-- The function `cmdline`, with the option string `"e:d:"` of the source, called
when `getopt` is in the state `st`; `argv` includes `argv[0]`, and `cfg` holds
the globals at entry.  The source never resets `optind`, so a later call in the
same process starts from the state the call before left. -/
def cmdline_at (L : Libc) (argv : List String) (st : GetoptState) (cfg : Config) :
    CmdResult :=
  cmdline_opts L (argv.headD "") (getopt_final "e:d:".toList st) cfg
    (getopt_returns "e:d:".toList st)

/-- The call of `cmdline` that `main` makes: the first in the process, with
`getopt` not yet called (`optind = 1`). -/
def cmdline (L : Libc) (argv : List String) (cfg : Config) : CmdResult :=
  cmdline_at L argv (getopt_start argv) cfg

/-! ## The program: `main` -/

/-- The calls `main` makes into the RAPL backend and the sampling engine. -/
inductive Call where
  | init_rapl
  | get_num_rapl_nodes_pkg
  | do_print_energy_info
  | terminate_rapl
deriving DecidableEq, Repr

/-- What the outside world answers during one run of the program. -/
structure World where
  /-- The return value of `init_rapl`. -/
  init_ret : Int
  /-- The return value of `get_num_rapl_nodes_pkg`. -/
  nodes : Nat
  /-- The answers during `do_print_energy_info`. -/
  session : Session

/-- One run of the program: the calls in order, the text on `stdout`, the exit
status (`none` while the sampling loop has not been left). -/
structure Run where
  calls : List Call
  stdout : String
  status : Option Int

/-- The function `main`; the globals start at their initialisers. -/
def main (R : Rapl) (L : Libc) (w : World) (argv : List String) : Run :=
  if w.init_ret ≠ 0 then
    { calls := [Call.init_rapl, Call.terminate_rapl]
      stdout := "Init failed!\n"
      status := some R.MY_ERROR }
  else
    let cfg0 : Config := { num_node := w.nodes, delay_us := 1000000, duration := 360000 }
    let c := cmdline L argv cfg0
    match c.outcome with
    | Outcome.exited status =>
      { calls := [Call.init_rapl, Call.get_num_rapl_nodes_pkg]
        stdout := c.out
        status := some status }
    | Outcome.returned ret =>
      if ret ≠ 0 then
        { calls := [Call.init_rapl, Call.get_num_rapl_nodes_pkg, Call.terminate_rapl]
          stdout := c.out
          status := some ret }
      else
        let o := do_print_energy_info R L.localtime c.cfg w.session
        if o.finished then
          { calls := [Call.init_rapl, Call.get_num_rapl_nodes_pkg, Call.do_print_energy_info,
              Call.terminate_rapl]
            stdout := c.out ++ o.text
            status := some 0 }
        else
          { calls := [Call.init_rapl, Call.get_num_rapl_nodes_pkg, Call.do_print_energy_info]
            stdout := c.out ++ o.text
            status := none }

/-! ## A decimal reading of `atoi` and `atof`, for concrete runs -/

/-- The value of the leading decimal digits of a text. -/
def digitsValue : List Char → Nat → Nat
  | [], acc => acc
  | c :: cs, acc => if c.isDigit then digitsValue cs (acc * 10 + (c.toNat - 48)) else acc

/-- The number of leading decimal digits of a text. -/
def digitsCount : List Char → Nat
  | [] => 0
  | c :: cs => if c.isDigit then digitsCount cs + 1 else 0

/-- An unsigned decimal number with an optional fraction part. -/
def decimalValue (cs : List Char) : ℚ :=
  let rest := cs.dropWhile Char.isDigit
  match rest with
  | '.' :: fs => (digitsValue cs 0 : ℚ) + (digitsValue fs 0 : ℚ) / (10 : ℚ) ^ digitsCount fs
  | _ => (digitsValue cs 0 : ℚ)

/-- The function `atoi` on decimal text: blanks, an optional sign, digits. -/
def atoi_dec (s : String) : Int :=
  match s.toList.dropWhile Char.isWhitespace with
  | '-' :: cs => -(digitsValue cs 0 : Int)
  | '+' :: cs => (digitsValue cs 0 : Int)
  | cs => (digitsValue cs 0 : Int)

/-- The function `atof` on plain decimal text: blanks, an optional sign, digits,
an optional point and digits. -/
def atof_dec (s : String) : ℚ :=
  match s.toList.dropWhile Char.isWhitespace with
  | '-' :: cs => -(decimalValue cs)
  | '+' :: cs => decimalValue cs
  | cs => decimalValue cs

/-- A C library for concrete runs: decimal `atoi` and `atof`, and a `localtime`
in the zone UTC. -/
def libc_dec : Libc :=
  { atoi := atoi_dec
    atof := atof_dec
    localtime := fun t =>
      { tm_hour := ⟨((t % 86400).toNat / 3600) % 24, Nat.mod_lt _ (by decide)⟩
        tm_min := ⟨((t % 3600).toNat / 60) % 60, Nat.mod_lt _ (by decide)⟩
        tm_sec := ⟨(t % 60).toNat % 61, Nat.mod_lt _ (by decide)⟩ } }

/-! ## Reading a line back: comma-terminated fields -/

/-- The comma-terminated fields of a text, in order; what follows the last
comma belongs to no field. -/
def commaFields : List Char → List (List Char)
  | [] => []
  | c :: cs =>
    if c = ',' then [] :: commaFields cs
    else
      match commaFields cs with
      | [] => []
      | f :: fs => (c :: f) :: fs

/-- The comma-terminated fields (columns) of a line of output. -/
def fields (s : String) : List String := (commaFields s.data).map String.mk

/-- The supported domains, in the order of their indices. -/
def supported_domains (R : Rapl) : List Nat :=
  (List.range RAPL_NR_DOMAIN).filter R.is_supported_domain

/-- The header label of a domain: Package, PP0, PP1, DRAM. -/
def domain_label : Nat → String
  | 0 => "Processor Power"
  | 1 => "IA Power"
  | 2 => "GT Power"
  | _ => "DRAM Power"

/-- The header columns as the spec lists them: time, elapsed, and per node the
frequency column followed by one power column per supported domain. -/
def spec_header_columns (R : Rapl) (num_node : Nat) : List String :=
  ["System Time", "Elapsed Time (sec)"] ++
    (List.range num_node).flatMap fun i =>
      ("IA Frequency_" ++ fmt_d i ++ " (MHz)") ::
        (supported_domains R).map fun d => domain_label d ++ "_" ++ fmt_d i ++ " (Watt)"

/-- The fields of a data row as the spec lists them: time, elapsed, and per
node the frequency followed by one power value per supported domain. -/
def spec_row_fields (R : Rapl) (num_node : Nat) (time : String) (total : ℚ)
    (freq : Nat → Nat) (power : Grid) : List String :=
  [time, fmt_4lf total] ++
    (List.range num_node).flatMap fun i =>
      fmt_lu (freq i) :: (supported_domains R).map fun d => fmt_4lf (power i d)

/-! ## Notions used in the statements and proofs -/

/-- A text that holds no comma. -/
def noComma (s : String) : Prop := ',' ∉ s.data

/-- Whether a text holds a comma can be computed. -/
instance (s : String) : Decidable (noComma s) :=
  inferInstanceAs (Decidable (',' ∉ s.data))

/-- A line made of the given fields, each followed by a comma. -/
def joinFields (fs : List String) : String := String.join (fs.map fun f => f ++ ",")

/-- The delta as the spec words it: the plain difference when the counter did
not go down, the difference plus the maximum when it did. -/
def spec_delta (MAX r_prev r_next : ℚ) : ℚ :=
  if r_next ≥ r_prev then r_next - r_prev else r_next - r_prev + MAX

/-- The loop state holds the given reads, start and previous timestamp. -/
def Holds (R : Rapl) (cfg : Config) (st : LoopState) (r : Readings) (start prev_end : ℚ) : Prop :=
  st.start = start ∧ st.end_time = prev_end ∧
    ∀ n k, n < cfg.num_node → k < RAPL_NR_DOMAIN → R.is_supported_domain k = true →
      st.samples.prev_sample n k = get_rapl_energy_info r k n

/-- The counter reads in the order the loop consumes them: the seeding reads,
then the reads of each tick. -/
def reads (w : Session) : List Readings := w.seed :: w.ticks.map Tick.energy

/-- The timestamps a tick measures its interval from: the session start, then
the reported timestamp of each tick. -/
def stamps (w : Session) : List ℚ :=
  convert_time_to_sec w.tv0 :: w.ticks.map fun t => convert_time_to_sec t.tv_end

/-! ## Concrete data -/

/-- A platform on which only Package is supported, with a maximum of 65536 J. -/
def rapl_pkg_only : Rapl :=
  { MAX_ENERGY_STATUS_JOULES := 65536
    MY_ERROR := -1
    is_supported_domain := fun d => d == 0 }

/-- Reads in which the Package counter of every node shows `x`. -/
def pkg_reads (x : ℚ) : Readings :=
  { pkg := fun _ => x, pp0 := fun _ => 0, pp1 := fun _ => 0, dram := fun _ => 0 }

/-- Array contents before the seeding loop. -/
def zero_samples : Samples :=
  { prev_sample := fun _ _ => 0, power_watt := fun _ _ => 0, delta_log := fun _ _ => 0 }

/-- One node, default delay and duration. -/
def one_node : Config := { num_node := 1, delay_us := 1000000, duration := 360000 }

/-- A session seeded with `r0` at time 0 whose only tick reads `r1` at 1.0 s. -/
def two_reads (r0 r1 : ℚ) : Session :=
  { junk := zero_samples
    seed := pkg_reads r0
    tv0 := ⟨0, 0⟩
    ticks := [{ tv_start := ⟨1, 0⟩, energy := pkg_reads r1, tv_end := ⟨1, 0⟩,
                freq := fun _ => 2400 }] }

/-- The tick of index `j` of a session paced at 100 ms: it starts 100 µs and
ends 200 µs after `(j + 1) * 0.1` seconds. -/
def paced_tick (j : Nat) : Tick :=
  { tv_start := ⟨((j + 1) / 10 : Nat), (((j + 1) % 10) * 100000 + 100 : Nat)⟩
    energy := pkg_reads (j + 1)
    tv_end := ⟨((j + 1) / 10 : Nat), (((j + 1) % 10) * 100000 + 200 : Nat)⟩
    freq := fun _ => 2400 }

/-- A session that starts at time 0 and has `count` ticks paced at 100 ms. -/
def paced_session (count : Nat) : Session :=
  { junk := zero_samples
    seed := pkg_reads 0
    tv0 := ⟨0, 0⟩
    ticks := (List.range count).map paced_tick }



/-! ## Lemmas: decimal digits -/

theorem toDigitsCore_append (b : Nat) : ∀ (f n : Nat) (ds : List Char),
    Nat.toDigitsCore b f n ds = Nat.toDigitsCore b f n [] ++ ds := by
  intro f
  induction f with
  | zero => intro n ds; simp [Nat.toDigitsCore]
  | succ f ih =>
    intro n ds
    simp only [Nat.toDigitsCore]
    split
    · simp
    · rw [ih (n / b) (_ :: ds), ih (n / b) [_]]; simp

theorem toDigitsCore_fuel (b : Nat) (hb : 2 ≤ b) : ∀ (f g n : Nat), n < f → n < g →
    Nat.toDigitsCore b f n [] = Nat.toDigitsCore b g n [] := by
  intro f
  induction f with
  | zero => intro g n h; omega
  | succ f ih =>
    intro g n hf hg
    cases g with
    | zero => omega
    | succ g =>
      simp only [Nat.toDigitsCore]
      split
      · rfl
      · rename_i hne
        have hpos : 0 < n := by
          rcases Nat.eq_zero_or_pos n with h0 | h0
          · subst h0; simp at hne
          · exact h0
        have hlt : n / b < n := Nat.div_lt_self hpos hb
        rw [toDigitsCore_append b f, toDigitsCore_append b g]
        rw [ih g (n / b) (by omega) (by omega)]

theorem toDigits_small (n : Nat) (h : n < 10) : Nat.toDigits 10 n = [Nat.digitChar n] := by
  simp only [Nat.toDigits, Nat.toDigitsCore]
  have h0 : n / 10 = 0 := Nat.div_eq_of_lt h
  have h1 : n % 10 = n := Nat.mod_eq_of_lt h
  simp [h0, h1]

theorem toDigits_step (n : Nat) (h : 10 ≤ n) :
    Nat.toDigits 10 n = Nat.toDigits 10 (n / 10) ++ [Nat.digitChar (n % 10)] := by
  have hne : n / 10 ≠ 0 := by
    have : 1 ≤ n / 10 := (Nat.le_div_iff_mul_le (by decide)).2 (by omega)
    omega
  have hlt : n / 10 < n := Nat.div_lt_self (by omega) (by decide)
  simp only [Nat.toDigits]
  rw [Nat.toDigitsCore]
  simp only [hne, if_false]
  rw [toDigitsCore_append]
  rw [toDigitsCore_fuel 10 (by decide) n (n / 10 + 1) (n / 10) hlt (by omega)]

theorem digitChar_isDigit (d : Nat) (h : d < 10) : (Nat.digitChar d).isDigit = true := by
  interval_cases d <;> decide

theorem isDigit_toDigits (n : Nat) : ∀ c ∈ Nat.toDigits 10 n, c.isDigit = true := by
  induction n using Nat.strong_induction_on with
  | _ n ih =>
    rcases Nat.lt_or_ge n 10 with h | h
    · rw [toDigits_small n h]
      intro c hc
      simp only [List.mem_singleton] at hc
      subst hc
      exact digitChar_isDigit n h
    · rw [toDigits_step n h]
      intro c hc
      rcases List.mem_append.1 hc with hc | hc
      · exact ih (n / 10) (Nat.div_lt_self (by omega) (by decide)) c hc
      · simp only [List.mem_singleton] at hc
        subst hc
        exact digitChar_isDigit _ (Nat.mod_lt _ (by decide))

theorem repr_data (n : Nat) : (Nat.repr n).data = Nat.toDigits 10 n := by
  simp [Nat.repr, List.asString]

theorem repr_digits (n : Nat) :
    Nat.repr n = String.mk
      (if n < 10 then [Nat.digitChar n]
       else if n < 100 then [Nat.digitChar (n / 10), Nat.digitChar (n % 10)]
       else Nat.toDigits 10 (n / 100) ++ [Nat.digitChar (n / 10 % 10), Nat.digitChar (n % 10)]) := by
  apply String.ext
  rw [repr_data]
  by_cases h1 : n < 10
  · simp [h1, toDigits_small n h1]
  · by_cases h2 : n < 100
    · have h3 : n / 10 < 10 := by omega
      simp [h1, h2, toDigits_step n (by omega), toDigits_small _ h3]
    · have h3 : 10 ≤ n / 10 := by omega
      have h4 : n / 10 / 10 = n / 100 := by omega
      simp [h1, h2, toDigits_step n (by omega), toDigits_step _ h3, h4]

/-! ## Lemmas: texts without a comma -/

theorem noComma_append {s t : String} (hs : noComma s) (ht : noComma t) : noComma (s ++ t) := by
  simp only [noComma, String.data_append, List.mem_append, not_or] at *
  exact ⟨hs, ht⟩

theorem noComma_repr (n : Nat) : noComma (Nat.repr n) := by
  intro h
  rw [repr_data] at h
  have := isDigit_toDigits n _ h
  revert this
  decide

theorem noComma_fmt_lu (n : Nat) : noComma (fmt_lu n) := noComma_repr n

theorem noComma_fmt_d (n : Int) : noComma (fmt_d n) := by
  unfold fmt_d
  split
  · exact noComma_append (by decide) (noComma_repr _)
  · exact noComma_repr _

theorem noComma_fmt_02 (n : Nat) : noComma (fmt_02 n) := by
  unfold fmt_02
  split
  · exact noComma_append (by decide) (noComma_repr _)
  · exact noComma_repr _

theorem noComma_zeroPad (w n : Nat) : noComma (zeroPad w n) := by
  unfold zeroPad
  refine noComma_append ?_ (noComma_repr _)
  intro h
  have := List.eq_of_mem_replicate h
  revert this
  decide

theorem noComma_fmt_4lf (q : ℚ) : noComma (fmt_4lf q) := by
  unfold fmt_4lf
  refine noComma_append (noComma_append (noComma_append ?_ (noComma_repr _)) (by decide))
    (noComma_zeroPad _ _)
  split <;> decide

theorem noComma_convert_time_to_string (localtime : Int → Tm) (tv : Timeval) :
    noComma (convert_time_to_string localtime tv) := by
  unfold convert_time_to_string strftime_HMS
  have hc : noComma ":" := by decide
  exact noComma_append (noComma_append (noComma_append (noComma_append (noComma_append
    (noComma_append (noComma_fmt_02 _) hc) (noComma_fmt_02 _)) hc) (noComma_fmt_02 _)) hc)
    (noComma_fmt_d _)

/-! ## Lemmas: comma-terminated fields -/

theorem commaFields_noComma : ∀ (t : List Char), ',' ∉ t → commaFields t = []
  | [], _ => rfl
  | c :: cs, h => by
    have hc : c ≠ ',' := fun e => h (by simp [e])
    have hcs : ',' ∉ cs := fun e => h (List.mem_cons_of_mem _ e)
    simp [commaFields, hc, commaFields_noComma cs hcs]

theorem commaFields_field : ∀ (f rest : List Char), ',' ∉ f →
    commaFields (f ++ ',' :: rest) = f :: commaFields rest
  | [], rest, _ => by simp [commaFields]
  | c :: cs, rest, h => by
    have hc : c ≠ ',' := fun e => h (by simp [e])
    have hcs : ',' ∉ cs := fun e => h (List.mem_cons_of_mem _ e)
    simp [commaFields, hc, commaFields_field cs rest hcs]

theorem joinFields_nil : joinFields [] = "" := rfl

theorem joinFields_cons (f : String) (fs : List String) :
    joinFields (f :: fs) = f ++ "," ++ joinFields fs := by
  apply String.ext
  simp [joinFields, String.data_join, String.data_append]

theorem joinFields_append (a b : List String) :
    joinFields (a ++ b) = joinFields a ++ joinFields b := by
  apply String.ext
  simp [joinFields, String.data_join, String.data_append]

theorem joinFields_flatMap {α : Type} (l : List α) (g : α → List String) :
    joinFields (l.flatMap g) = String.join (l.map fun a => joinFields (g a)) := by
  induction l with
  | nil => rfl
  | cons a l ih =>
    rw [List.flatMap_cons, joinFields_append, ih]
    apply String.ext
    simp [String.data_join, String.data_append]

theorem fields_joinFields (fs : List String) (h : ∀ f ∈ fs, noComma f) (tail : String)
    (ht : noComma tail) : fields (joinFields fs ++ tail) = fs := by
  unfold fields
  induction fs with
  | nil =>
    simp [joinFields_nil, String.data_append, commaFields_noComma tail.data ht]
  | cons f fs ih =>
    have hf : ',' ∉ f.data := h f (List.mem_cons_self _ _)
    have ih2 := ih (fun g hg => h g (List.mem_cons_of_mem _ hg))
    rw [joinFields_cons]
    simp only [String.data_append] at ih2 ⊢
    rw [List.append_assoc, List.append_assoc, List.singleton_append,
      commaFields_field _ _ hf, List.map_cons, ih2]

theorem header_node_eq (R : Rapl) (i : Nat) :
    header_node R i = joinFields
      (("IA Frequency_" ++ fmt_d i ++ " (MHz)") ::
        (supported_domains R).map fun d => domain_label d ++ "_" ++ fmt_d i ++ " (Watt)") := by
  apply String.ext
  unfold header_node supported_domains
  have hr : List.range RAPL_NR_DOMAIN = [0, 1, 2, 3] := by decide
  rw [hr]
  cases h0 : R.is_supported_domain 0 <;> cases h1 : R.is_supported_domain 1 <;>
    cases h2 : R.is_supported_domain 2 <;> cases h3 : R.is_supported_domain 3 <;>
    simp [RAPL_PKG, RAPL_PP0, RAPL_PP1, RAPL_DRAM, h0, h1, h2, h3, List.filter, joinFields,
      String.data_join, String.data_append, domain_label]

theorem print_header_eq (R : Rapl) (num_node : Nat) :
    print_header R num_node = joinFields (spec_header_columns R num_node) ++ "\n" := by
  unfold print_header spec_header_columns
  rw [joinFields_append, joinFields_flatMap]
  have e : (fun i => header_node R i) = fun (i : Nat) => joinFields
      (("IA Frequency_" ++ fmt_d i ++ " (MHz)") ::
        (supported_domains R).map fun d => domain_label d ++ "_" ++ fmt_d i ++ " (Watt)") :=
    funext (header_node_eq R)
  have e2 : header_node R = fun i => header_node R i := rfl
  rw [e2, e]
  rfl

theorem row_node_eq (R : Rapl) (freq : Nat → Nat) (power : Grid) (i : Nat) :
    row_node R freq power i = joinFields
      (fmt_lu (freq i) :: (supported_domains R).map fun d => fmt_4lf (power i d)) := by
  apply String.ext
  unfold row_node supported_domains
  have hr : List.range RAPL_NR_DOMAIN = [0, 1, 2, 3] := by decide
  rw [hr]
  cases h0 : R.is_supported_domain 0 <;> cases h1 : R.is_supported_domain 1 <;>
    cases h2 : R.is_supported_domain 2 <;> cases h3 : R.is_supported_domain 3 <;>
    simp [h0, h1, h2, h3, List.filter, joinFields, String.data_join, String.data_append]

theorem print_row_eq (R : Rapl) (num_node : Nat) (time : String) (total : ℚ)
    (freq : Nat → Nat) (power : Grid) :
    print_row R num_node time total freq power =
      joinFields (spec_row_fields R num_node time total freq power) ++ "\n" := by
  unfold print_row spec_row_fields
  rw [joinFields_append, joinFields_flatMap]
  have e : row_node R freq power = fun (i : Nat) => joinFields
      (fmt_lu (freq i) :: (supported_domains R).map fun d => fmt_4lf (power i d)) :=
    funext (row_node_eq R freq power)
  rw [e]
  apply String.ext
  simp [joinFields, String.data_join, String.data_append]

/-! ## Lemmas: the seeding and sampling loops -/

theorem foldl_range_succ {σ : Type} (f : σ → Nat → σ) (s : σ) (m : Nat) :
    (List.range (m + 1)).foldl f s = f ((List.range m).foldl f s) m := by
  rw [List.range_succ, List.foldl_append]
  rfl

theorem wrap_eq (M a b : ℚ) :
    (if a < b then a - b + M else a - b) = if b ≤ a then a - b else a - b + M := by
  split_ifs <;> first | rfl | (exfalso; linarith)

theorem sample_domains_eq (R : Rapl) (r : Readings) (dt : ℚ) (i : Nat) (s : Samples) :
    ∀ m : Nat, (List.range m).foldl (sample_domain R r dt i) s =
      { prev_sample := fun n k =>
          if n = i ∧ k < m ∧ R.is_supported_domain k = true then get_rapl_energy_info r k n
          else s.prev_sample n k
        power_watt := fun n k =>
          if n = i ∧ k < m ∧ R.is_supported_domain k = true then
            spec_delta R.MAX_ENERGY_STATUS_JOULES (s.prev_sample n k)
              (get_rapl_energy_info r k n) / dt
          else s.power_watt n k
        delta_log := fun n k =>
          if n = i ∧ k < m ∧ R.is_supported_domain k = true then
            spec_delta R.MAX_ENERGY_STATUS_JOULES (s.prev_sample n k)
              (get_rapl_energy_info r k n)
          else s.delta_log n k } := by
  intro m
  induction m with
  | zero => simp
  | succ m ih =>
    rw [foldl_range_succ, ih]
    unfold sample_domain
    cases hs : R.is_supported_domain m
    · simp only [Bool.false_eq_true, if_false]
      congr 1 <;> funext n k <;> simp only [Nat.lt_succ_iff_lt_or_eq] <;>
        by_cases h1 : n = i <;> by_cases h2 : k = m <;>
        simp [h1, h2, hs]
    · simp only [if_true]
      congr 1 <;> funext n k <;> simp only [Grid.set, Nat.lt_succ_iff_lt_or_eq] <;>
        by_cases h1 : n = i <;> by_cases h2 : k = m <;>
        simp [h1, h2, hs, spec_delta, wrap_eq]

theorem sample_all_eq (R : Rapl) (r : Readings) (dt : ℚ) (s : Samples) (N : Nat) :
    sample_all R N r dt s =
      { prev_sample := fun n k =>
          if n < N ∧ k < RAPL_NR_DOMAIN ∧ R.is_supported_domain k = true then
            get_rapl_energy_info r k n
          else s.prev_sample n k
        power_watt := fun n k =>
          if n < N ∧ k < RAPL_NR_DOMAIN ∧ R.is_supported_domain k = true then
            spec_delta R.MAX_ENERGY_STATUS_JOULES (s.prev_sample n k)
              (get_rapl_energy_info r k n) / dt
          else s.power_watt n k
        delta_log := fun n k =>
          if n < N ∧ k < RAPL_NR_DOMAIN ∧ R.is_supported_domain k = true then
            spec_delta R.MAX_ENERGY_STATUS_JOULES (s.prev_sample n k)
              (get_rapl_energy_info r k n)
          else s.delta_log n k } := by
  unfold sample_all
  induction N with
  | zero => simp
  | succ N ih =>
    rw [foldl_range_succ, ih, sample_domains_eq]
    congr 1 <;> funext n k <;> simp only [Nat.lt_succ_iff_lt_or_eq] <;>
      by_cases h1 : n = N <;> by_cases h2 : k < RAPL_NR_DOMAIN <;>
      by_cases h3 : R.is_supported_domain k = true <;> simp [h1, h2, h3]

theorem seed_domains_eq (R : Rapl) (r : Readings) (i : Nat) (s : Samples) :
    ∀ m : Nat, (List.range m).foldl (seed_domain R r i) s =
      { prev_sample := fun n k =>
          if n = i ∧ k < m ∧ R.is_supported_domain k = true then get_rapl_energy_info r k n
          else s.prev_sample n k
        power_watt := s.power_watt
        delta_log := s.delta_log } := by
  intro m
  induction m with
  | zero => simp
  | succ m ih =>
    rw [foldl_range_succ, ih]
    unfold seed_domain
    cases hs : R.is_supported_domain m
    · simp only [Bool.false_eq_true, if_false]
      congr 1; funext n k; simp only [Nat.lt_succ_iff_lt_or_eq]
      by_cases h1 : n = i <;> by_cases h2 : k = m <;> simp [h1, h2, hs]
    · simp only [if_true]
      congr 1; funext n k; simp only [Grid.set, Nat.lt_succ_iff_lt_or_eq]
      by_cases h1 : n = i <;> by_cases h2 : k = m <;> simp [h1, h2, hs]

theorem seed_all_eq (R : Rapl) (r : Readings) (s : Samples) (N : Nat) :
    seed_all R N r s =
      { prev_sample := fun n k =>
          if n < N ∧ k < RAPL_NR_DOMAIN ∧ R.is_supported_domain k = true then
            get_rapl_energy_info r k n
          else s.prev_sample n k
        power_watt := s.power_watt
        delta_log := s.delta_log } := by
  unfold seed_all
  induction N with
  | zero => simp
  | succ N ih =>
    rw [foldl_range_succ, ih, seed_domains_eq]
    congr 1; funext n k; simp only [Nat.lt_succ_iff_lt_or_eq]
    by_cases h1 : n = N <;> by_cases h2 : k < RAPL_NR_DOMAIN <;>
      by_cases h3 : R.is_supported_domain k = true <;> simp [h1, h2, h3]

theorem holds_seeded (R : Rapl) (cfg : Config) (w : Session) :
    Holds R cfg (seeded R cfg w) w.seed (convert_time_to_sec w.tv0)
      (convert_time_to_sec w.tv0) := by
  refine ⟨rfl, rfl, ?_⟩
  intro n k hn hk hs
  simp [seeded, seed_all_eq, hn, hk, hs]

theorem holds_tick (R : Rapl) (localtime : Int → Tm) (cfg : Config) (st : LoopState) (t : Tick)
    (r : Readings) (start prev_end : ℚ) (h : Holds R cfg st r start prev_end) :
    Holds R cfg (tick R localtime cfg st t).1 t.energy start (convert_time_to_sec t.tv_end) := by
  refine ⟨h.1, rfl, ?_⟩
  intro n k hn hk hs
  simp [tick, sample_all_eq, hn, hk, hs]

/-- What one iteration computes, in closed form, from a state that holds the
reads `r`, the start `start` and the previous timestamp `prev_end`. -/
theorem tick_out (R : Rapl) (localtime : Int → Tm) (cfg : Config) (st : LoopState) (t : Tick)
    (r : Readings) (start prev_end : ℚ) (h : Holds R cfg st r start prev_end) :
    let o := (tick R localtime cfg st t).2
    o.interval_elapsed_time = convert_time_to_sec t.tv_start - prev_end ∧
    o.total_elapsed_time = convert_time_to_sec t.tv_end - start ∧
    o.row = print_row R cfg.num_node (convert_time_to_string localtime t.tv_end)
      o.total_elapsed_time t.freq o.power_watt ∧
    ∀ n k, n < cfg.num_node → k < RAPL_NR_DOMAIN → R.is_supported_domain k = true →
      o.delta n k = spec_delta R.MAX_ENERGY_STATUS_JOULES (get_rapl_energy_info r k n)
        (get_rapl_energy_info t.energy k n) ∧
      o.power_watt n k = o.delta n k / o.interval_elapsed_time := by
  obtain ⟨h1, h2, h3⟩ := h
  refine ⟨by simp [tick, h2], by simp [tick, h1], rfl, ?_⟩
  intro n k hn hk hs
  simp [tick, sample_all_eq, hn, hk, hs, h3 n k hn hk hs, h2]

theorem sampling_loop_cons (R : Rapl) (localtime : Int → Tm) (cfg : Config) (st : LoopState)
    (t : Tick) (ts : List Tick) :
    sampling_loop R localtime cfg st (t :: ts) =
      if convert_time_to_sec t.tv_end - st.start ≥ cfg.duration then
        ([(tick R localtime cfg st t).2], true)
      else
        ((tick R localtime cfg st t).2 :: (sampling_loop R localtime cfg
            (tick R localtime cfg st t).1 ts).1,
          (sampling_loop R localtime cfg (tick R localtime cfg st t).1 ts).2) := rfl

/-- The output of index `i` is the iteration on the `i`-th tick, from a state
that holds the reads and the timestamp left by the iteration before. -/
theorem sampling_loop_at (R : Rapl) (localtime : Int → Tm) (cfg : Config) (start : ℚ) :
    ∀ (ts : List Tick) (st : LoopState) (r : Readings) (e : ℚ), Holds R cfg st r start e →
    ∀ (i : Nat) (o : TickOut), (sampling_loop R localtime cfg st ts).1[i]? = some o →
    ∃ (t : Tick) (rp : Readings) (ep : ℚ) (sti : LoopState),
      ts[i]? = some t ∧ (r :: ts.map Tick.energy)[i]? = some rp ∧
      (e :: ts.map fun t => convert_time_to_sec t.tv_end)[i]? = some ep ∧
      Holds R cfg sti rp start ep ∧ o = (tick R localtime cfg sti t).2 := by
  intro ts
  induction ts with
  | nil => intro st r e _ i o ho; simp [sampling_loop] at ho
  | cons t ts ih =>
    intro st r e h i o ho
    rw [sampling_loop_cons] at ho
    cases i with
    | zero =>
      refine ⟨t, r, e, st, by simp, by simp, by simp, h, ?_⟩
      split at ho <;> simp at ho <;> exact ho.symm
    | succ j =>
      split at ho
      · simp at ho
      · simp only [List.getElem?_cons_succ] at ho
        obtain ⟨t2, rp, ep, sti, h1, h2, h3, h4, h5⟩ :=
          ih _ _ _ (holds_tick R localtime cfg st t r start e h) j o ho
        exact ⟨t2, rp, ep, sti, by simpa using h1, by simpa using h2, by simpa using h3, h4, h5⟩

/-- The loop is left at the first tick whose total elapsed time reaches the
duration, after exactly that many iterations. -/
theorem sampling_loop_stop (R : Rapl) (localtime : Int → Tm) (cfg : Config) :
    ∀ (ts : List Tick) (st : LoopState) (k : Nat) (t : Tick), ts[k]? = some t →
    convert_time_to_sec t.tv_end - st.start ≥ cfg.duration →
    (∀ j tj, j < k → ts[j]? = some tj →
      convert_time_to_sec tj.tv_end - st.start < cfg.duration) →
    (sampling_loop R localtime cfg st ts).2 = true ∧
      (sampling_loop R localtime cfg st ts).1.length = k + 1 := by
  intro ts
  induction ts with
  | nil => intro st k t hk; simp at hk
  | cons t0 ts ih =>
    intro st k t hk hge hlt
    rw [sampling_loop_cons]
    cases k with
    | zero =>
      simp only [List.getElem?_cons_zero, Option.some.injEq] at hk
      subst hk
      simp [hge]
    | succ k =>
      have h0 := hlt 0 t0 (Nat.succ_pos k) (by simp)
      rw [if_neg (not_le.2 h0)]
      simp only [List.getElem?_cons_succ] at hk
      have := ih (tick R localtime cfg st t0).1 k t hk hge
        (fun j tj hj htj => hlt (j + 1) tj (Nat.succ_lt_succ hj) (by simpa using htj))
      simpa using this

/-- While no tick reaches the duration the loop goes on: one output per tick. -/
theorem sampling_loop_running (R : Rapl) (localtime : Int → Tm) (cfg : Config) :
    ∀ (ts : List Tick) (st : LoopState),
    (∀ t ∈ ts, convert_time_to_sec t.tv_end - st.start < cfg.duration) →
    (sampling_loop R localtime cfg st ts).2 = false ∧
      (sampling_loop R localtime cfg st ts).1.length = ts.length := by
  intro ts
  induction ts with
  | nil => intro st _; simp [sampling_loop]
  | cons t0 ts ih =>
    intro st h
    rw [sampling_loop_cons, if_neg (not_le.2 (h t0 (List.mem_cons_self _ _)))]
    have := ih (tick R localtime cfg st t0).1 (fun t ht => h t (List.mem_cons_of_mem _ ht))
    simpa using this

/-- Every output but the last has a total elapsed time below the duration, and
when the loop is left the last output has reached it. -/
theorem sampling_loop_rows (R : Rapl) (localtime : Int → Tm) (cfg : Config) :
    ∀ (ts : List Tick) (st : LoopState),
    (∀ j o, (sampling_loop R localtime cfg st ts).1[j]? = some o →
      j + 1 < (sampling_loop R localtime cfg st ts).1.length →
      o.total_elapsed_time < cfg.duration) ∧
    ((sampling_loop R localtime cfg st ts).2 = true →
      ∃ o, (sampling_loop R localtime cfg st ts).1.getLast? = some o ∧
        o.total_elapsed_time ≥ cfg.duration) := by
  intro ts
  induction ts with
  | nil => intro st; simp [sampling_loop]
  | cons t0 ts ih =>
    intro st
    rw [sampling_loop_cons]
    split
    · rename_i hge
      refine ⟨?_, fun _ => ⟨_, rfl, hge⟩⟩
      intro j o _ hj
      simp at hj
    · rename_i hlt
      obtain ⟨ih1, ih2⟩ := ih (tick R localtime cfg st t0).1
      refine ⟨?_, ?_⟩
      · intro j o ho hj
        cases j with
        | zero =>
          simp only [List.getElem?_cons_zero, Option.some.injEq] at ho
          subst ho
          exact not_le.1 hlt
        | succ j =>
          simp only [List.getElem?_cons_succ] at ho
          exact ih1 j o ho (by simpa using hj)
      · intro hfin
        obtain ⟨o, ho, hge⟩ := ih2 hfin
        refine ⟨o, ?_, hge⟩
        simp only
        cases hrest : (sampling_loop R localtime cfg (tick R localtime cfg st t0).1 ts).1 with
        | nil => rw [hrest] at ho; simp at ho
        | cons a l => rw [hrest] at ho; simpa [List.getLast?_cons_cons] using ho

/-! ## The claims about the sampling engine -/

theorem index_some_eq {α : Type} {l : List α} {i : Nat} {a b : α}
    (ha : l[i]? = some a) (hb : l[i]? = some b) : a = b :=
  Option.some.inj (ha.symm.trans hb)

/-- The output of index `i` of `do_print_energy_info`, in closed form. -/
theorem do_print_at (R : Rapl) (localtime : Int → Tm) (cfg : Config) (w : Session)
    (i : Nat) (o : TickOut)
    (ho : (do_print_energy_info R localtime cfg w).ticks[i]? = some o) :
    ∃ (t : Tick) (r_prev : Readings) (e_prev : ℚ),
      w.ticks[i]? = some t ∧ (reads w)[i]? = some r_prev ∧ (stamps w)[i]? = some e_prev ∧
      o.interval_elapsed_time = convert_time_to_sec t.tv_start - e_prev ∧
      o.total_elapsed_time = convert_time_to_sec t.tv_end - convert_time_to_sec w.tv0 ∧
      o.row = print_row R cfg.num_node (convert_time_to_string localtime t.tv_end)
        o.total_elapsed_time t.freq o.power_watt ∧
      ∀ n k, n < cfg.num_node → k < RAPL_NR_DOMAIN → R.is_supported_domain k = true →
        o.delta n k = spec_delta R.MAX_ENERGY_STATUS_JOULES (get_rapl_energy_info r_prev k n)
          (get_rapl_energy_info t.energy k n) ∧
        o.power_watt n k = o.delta n k / o.interval_elapsed_time := by
  obtain ⟨t, rp, ep, sti, h1, h2, h3, h4, h5⟩ :=
    sampling_loop_at R localtime cfg (convert_time_to_sec w.tv0) w.ticks (seeded R cfg w)
      w.seed (convert_time_to_sec w.tv0) (holds_seeded R cfg w) i o ho
  obtain ⟨a, b, c, d⟩ := tick_out R localtime cfg sti t rp _ ep h4
  subst h5
  exact ⟨t, rp, ep, h1, h2, h3, a, b, c, d⟩

/-- The first output of `do_print_energy_info` when there is a tick. -/
theorem do_print_first (R : Rapl) (localtime : Int → Tm) (cfg : Config) (w : Session)
    (t : Tick) (ts : List Tick) (hw : w.ticks = t :: ts) :
    (do_print_energy_info R localtime cfg w).ticks[0]? =
      some (tick R localtime cfg (seeded R cfg w) t).2 := by
  unfold do_print_energy_info
  simp only [hw, sampling_loop_cons]
  split <;> simp

/-- C1: for one supported (node, domain), let `r_prev` and `r_next` be two
successive raw counter reads of the loop (`reads w` at `i` and `i + 1`).  The
delta the sampling loop computes at step `i` is `r_next - r_prev` when
`r_next >= r_prev`, and `r_next - r_prev + MAX_ENERGY_STATUS_JOULES` when
`r_next < r_prev`; and it is `>= 0` after the correction, for `r_next >= 0` and
`r_prev` a read of the counter, which wraps at `MAX_ENERGY_STATUS_JOULES` and so
shows at most that value. -/
theorem delta_wraparound (R : Rapl) (localtime : Int → Tm) (cfg : Config) (w : Session)
    (n d i : Nat) (r_prev r_next : Readings) (o : TickOut)
    (hn : n < cfg.num_node) (hd : d < RAPL_NR_DOMAIN)
    (hs : R.is_supported_domain d = true)
    (hp : (reads w)[i]? = some r_prev) (hq : (reads w)[i + 1]? = some r_next)
    (ho : (do_print_energy_info R localtime cfg w).ticks[i]? = some o) :
    (get_rapl_energy_info r_prev d n ≤ get_rapl_energy_info r_next d n →
      o.delta n d = get_rapl_energy_info r_next d n - get_rapl_energy_info r_prev d n) ∧
    (get_rapl_energy_info r_next d n < get_rapl_energy_info r_prev d n →
      o.delta n d = get_rapl_energy_info r_next d n - get_rapl_energy_info r_prev d n +
        R.MAX_ENERGY_STATUS_JOULES) ∧
    (0 ≤ get_rapl_energy_info r_next d n →
      get_rapl_energy_info r_prev d n ≤ R.MAX_ENERGY_STATUS_JOULES → 0 ≤ o.delta n d) := by
  obtain ⟨t, rp, ep, h1, h2, _, _, _, _, h7⟩ := do_print_at R localtime cfg w i o ho
  have e1 : rp = r_prev := index_some_eq h2 hp
  have e2 : t.energy = r_next := by
    have : (reads w)[i + 1]? = some t.energy := by simp [reads, h1]
    exact index_some_eq this hq
  subst e1 e2
  have hdelta := (h7 n d hn hd hs).1
  rw [hdelta]
  unfold spec_delta
  refine ⟨fun h => by simp [h], fun h => by simp [not_le.2 h], fun h0 hM => ?_⟩
  split_ifs with hc <;> linarith

/-- C1, witness: seed `MAX - 10`, next read `5`, delta `15`. -/
theorem delta_wraparound_witness :
    ∃ o : TickOut, (do_print_energy_info rapl_pkg_only libc_dec.localtime one_node
        (two_reads (65536 - 10) 5)).ticks[0]? = some o ∧ o.delta 0 0 = 15 := by
  have h := delta_wraparound rapl_pkg_only libc_dec.localtime one_node
    (two_reads (65536 - 10) 5) 0 0 0 (pkg_reads (65536 - 10)) (pkg_reads 5) _
    (by decide) (by decide) (by decide) rfl rfl
    (do_print_first _ _ _ _ _ _ rfl)
  have h2 := h.2.1 (by norm_num [get_rapl_energy_info, pkg_reads, PKG])
  refine ⟨_, do_print_first _ _ _ _ _ _ rfl, ?_⟩
  rw [h2]
  norm_num [get_rapl_energy_info, pkg_reads, PKG, rapl_pkg_only]

theorem noComma_domain_label (d : Nat) : noComma (domain_label d) := by
  unfold domain_label
  split <;> decide

theorem noComma_spec_header_columns (R : Rapl) (num_node : Nat) :
    ∀ f ∈ spec_header_columns R num_node, noComma f := by
  intro f hf
  simp only [spec_header_columns, List.mem_append, List.mem_cons, List.mem_singleton,
    List.mem_flatMap, List.mem_map, List.mem_range, List.not_mem_nil, or_false] at hf
  rcases hf with (rfl | rfl) | ⟨i, _, rfl | ⟨d, _, rfl⟩⟩
  · decide
  · decide
  · exact noComma_append (noComma_append (by decide) (noComma_fmt_d _)) (by decide)
  · exact noComma_append (noComma_append (noComma_append (noComma_domain_label d) (by decide))
      (noComma_fmt_d _)) (by decide)

theorem noComma_spec_row_fields (R : Rapl) (num_node : Nat) (time : String) (total : ℚ)
    (freq : Nat → Nat) (power : Grid) (ht : noComma time) :
    ∀ f ∈ spec_row_fields R num_node time total freq power, noComma f := by
  intro f hf
  simp only [spec_row_fields, List.mem_append, List.mem_cons, List.mem_singleton,
    List.mem_flatMap, List.mem_map, List.mem_range, List.not_mem_nil, or_false] at hf
  rcases hf with (rfl | rfl) | ⟨i, _, rfl | ⟨d, _, rfl⟩⟩
  · exact ht
  · exact noComma_fmt_4lf _
  · exact noComma_fmt_lu _
  · exact noComma_fmt_4lf _

theorem fields_print_header (R : Rapl) (num_node : Nat) :
    fields (print_header R num_node) = spec_header_columns R num_node := by
  rw [print_header_eq]
  exact fields_joinFields _ (noComma_spec_header_columns R num_node) "\n" (by decide)

theorem fields_print_row (R : Rapl) (num_node : Nat) (time : String) (total : ℚ)
    (freq : Nat → Nat) (power : Grid) (ht : noComma time) :
    fields (print_row R num_node time total freq power) =
      spec_row_fields R num_node time total freq power := by
  rw [print_row_eq]
  exact fields_joinFields _ (noComma_spec_row_fields R num_node time total freq power ht) "\n"
    (by decide)

theorem length_flatMap_range {α : Type} (g : Nat → List α) (c : Nat)
    (h : ∀ i, (g i).length = c) : ∀ N : Nat, ((List.range N).flatMap g).length = N * c := by
  intro N
  induction N with
  | zero => simp
  | succ N ih =>
    rw [List.range_succ, List.flatMap_append, List.length_append, ih]
    simp [h, Nat.succ_mul]

theorem length_spec_header_columns (R : Rapl) (num_node : Nat) :
    (spec_header_columns R num_node).length =
      1 + 1 + num_node * (1 + (supported_domains R).length) := by
  unfold spec_header_columns
  rw [List.length_append, length_flatMap_range _ (1 + (supported_domains R).length)]
  · rfl
  · intro i; simp [Nat.add_comm]

theorem length_spec_row_fields (R : Rapl) (num_node : Nat) (time : String) (total : ℚ)
    (freq : Nat → Nat) (power : Grid) :
    (spec_row_fields R num_node time total freq power).length =
      1 + 1 + num_node * (1 + (supported_domains R).length) := by
  unfold spec_row_fields
  rw [List.length_append, length_flatMap_range _ (1 + (supported_domains R).length)]
  · rfl
  · intro i; simp [Nat.add_comm]

/-- C2: at every tick `i` whose measured interval is positive, the power printed
for a supported (node, domain) is the wraparound-corrected delta of the two
successive reads divided by the measured interval, and the interval is the time
read at the start of the tick minus the timestamp the previous tick recorded
(`stamps w` at `i`: the session start for the first tick); the configured delay
does not enter.  The row printed is the rendering of these power values. -/
theorem power_is_delta_over_interval (R : Rapl) (localtime : Int → Tm) (cfg : Config)
    (w : Session) (n d i : Nat) (t : Tick) (r_prev : Readings) (e_prev : ℚ) (o : TickOut)
    (hn : n < cfg.num_node) (hd : d < RAPL_NR_DOMAIN)
    (hs : R.is_supported_domain d = true)
    (ht : w.ticks[i]? = some t) (hp : (reads w)[i]? = some r_prev)
    (he : (stamps w)[i]? = some e_prev)
    (ho : (do_print_energy_info R localtime cfg w).ticks[i]? = some o)
    (_hpos : 0 < convert_time_to_sec t.tv_start - e_prev) :
    o.interval_elapsed_time = convert_time_to_sec t.tv_start - e_prev ∧
    o.power_watt n d =
      spec_delta R.MAX_ENERGY_STATUS_JOULES (get_rapl_energy_info r_prev d n)
        (get_rapl_energy_info t.energy d n) / (convert_time_to_sec t.tv_start - e_prev) ∧
    fields o.row = spec_row_fields R cfg.num_node (convert_time_to_string localtime t.tv_end)
      (convert_time_to_sec t.tv_end - convert_time_to_sec w.tv0) t.freq o.power_watt := by
  obtain ⟨t2, rp, ep, h1, h2, h3, h4, h5, h6, h7⟩ := do_print_at R localtime cfg w i o ho
  have e1 : t2 = t := index_some_eq h1 ht
  have e2 : rp = r_prev := index_some_eq h2 hp
  have e3 : ep = e_prev := index_some_eq h3 he
  subst e1 e2 e3
  refine ⟨h4, ?_, ?_⟩
  · rw [(h7 n d hn hd hs).2, (h7 n d hn hd hs).1, h4]
  · rw [h6, h5]
    exact fields_print_row _ _ _ _ _ _ (noComma_convert_time_to_string _ _)

/-- C2, witness: one node, only Package supported, seed 100.0 J at t = 0, next
read 150.0 J at t = 1.0 s: the power is 50.0 W and the row has exactly one power
column, with the value `50.0000`. -/
theorem power_is_delta_over_interval_witness :
    ∃ o : TickOut, (do_print_energy_info rapl_pkg_only libc_dec.localtime one_node
        (two_reads 100 150)).ticks[0]? = some o ∧
      o.power_watt 0 0 = 50 ∧ fields o.row = ["00:00:01:0", "1.0000", "2400", "50.0000"] := by
  have hpos : (0 : ℚ) < convert_time_to_sec ⟨1, 0⟩ - convert_time_to_sec ⟨0, 0⟩ := by
    norm_num [convert_time_to_sec]
  have h := power_is_delta_over_interval rapl_pkg_only libc_dec.localtime one_node
    (two_reads 100 150) 0 0 0 ⟨⟨1, 0⟩, pkg_reads 150, ⟨1, 0⟩, fun _ => 2400⟩ (pkg_reads 100)
    (convert_time_to_sec ⟨0, 0⟩) _ (by decide) (by decide) (by decide) rfl rfl rfl
    (do_print_first _ _ _ _ _ _ rfl) hpos
  have hp : (tick rapl_pkg_only libc_dec.localtime one_node
      (seeded rapl_pkg_only one_node (two_reads 100 150))
      ⟨⟨1, 0⟩, pkg_reads 150, ⟨1, 0⟩, fun _ => 2400⟩).2.power_watt 0 0 = 50 := by
    rw [h.2.1]
    norm_num [spec_delta, get_rapl_energy_info, pkg_reads, PKG, rapl_pkg_only,
      convert_time_to_sec]
  refine ⟨_, do_print_first _ _ _ _ _ _ rfl, hp, ?_⟩
  rw [h.2.2]
  have ht : convert_time_to_sec ⟨1, 0⟩ - convert_time_to_sec (two_reads 100 150).tv0 = 1 := by
    norm_num [convert_time_to_sec, two_reads]
  have hsup : supported_domains rapl_pkg_only = [0] := by decide
  have hN : one_node.num_node = 1 := rfl
  have hr : List.range 1 = [0] := by decide
  simp only [spec_row_fields, hsup, ht, hN, hr, List.flatMap_cons, List.flatMap_nil,
    List.map_cons, List.map_nil, hp]
  decide

/-- C3: let the tick of index `k` be the first whose total elapsed time
(reported timestamp minus session start) is `>=` the configured duration.  Then
the sampling loop is left, it has emitted exactly `k + 1` rows, the row of index
`j` is the row of the tick of index `j`, every row before index `k` has a total
elapsed time `<` the duration and the last row (index `k`) has one `>=` it. -/
theorem stops_at_first_crossing (R : Rapl) (localtime : Int → Tm) (cfg : Config) (w : Session)
    (k : Nat) (t : Tick) (hk : w.ticks[k]? = some t)
    (hge : cfg.duration ≤ convert_time_to_sec t.tv_end - convert_time_to_sec w.tv0)
    (hlt : ∀ (j : Nat) (tj : Tick), j < k → w.ticks[j]? = some tj →
      convert_time_to_sec tj.tv_end - convert_time_to_sec w.tv0 < cfg.duration) :
    (do_print_energy_info R localtime cfg w).finished = true ∧
    (do_print_energy_info R localtime cfg w).ticks.length = k + 1 ∧
    (∀ (j : Nat) (o : TickOut), (do_print_energy_info R localtime cfg w).ticks[j]? = some o →
      ∃ tj : Tick, w.ticks[j]? = some tj ∧
        o.total_elapsed_time = convert_time_to_sec tj.tv_end - convert_time_to_sec w.tv0 ∧
        o.row = print_row R cfg.num_node (convert_time_to_string localtime tj.tv_end)
          o.total_elapsed_time tj.freq o.power_watt) ∧
    (∀ (j : Nat) (o : TickOut), (do_print_energy_info R localtime cfg w).ticks[j]? = some o → j < k →
      o.total_elapsed_time < cfg.duration) ∧
    (∀ o : TickOut, (do_print_energy_info R localtime cfg w).ticks[k]? = some o →
      cfg.duration ≤ o.total_elapsed_time) := by
  have hstop := sampling_loop_stop R localtime cfg w.ticks (seeded R cfg w) k t hk hge hlt
  have hrow : ∀ (j : Nat) (o : TickOut), (do_print_energy_info R localtime cfg w).ticks[j]? = some o →
      ∃ tj : Tick, w.ticks[j]? = some tj ∧
        o.total_elapsed_time = convert_time_to_sec tj.tv_end - convert_time_to_sec w.tv0 ∧
        o.row = print_row R cfg.num_node (convert_time_to_string localtime tj.tv_end)
          o.total_elapsed_time tj.freq o.power_watt := by
    intro j o ho
    obtain ⟨tj, _, _, h1, _, _, _, h5, h6, _⟩ := do_print_at R localtime cfg w j o ho
    exact ⟨tj, h1, h5, h6⟩
  refine ⟨hstop.1, hstop.2, hrow, ?_, ?_⟩
  · intro j o ho hj
    obtain ⟨tj, h1, h2, _⟩ := hrow j o ho
    rw [h2]
    exact hlt j tj hj h1
  · intro o ho
    obtain ⟨tj, h1, h2, _⟩ := hrow k o ho
    rw [h2, index_some_eq h1 hk]
    exact hge

theorem paced_total (j : Nat) :
    convert_time_to_sec (paced_tick j).tv_end - convert_time_to_sec ⟨0, 0⟩ =
      (((j + 1) / 10 : Nat) : ℚ) + ((((j + 1) % 10) * 100000 + 200 : Nat) : ℚ) / 1000000 := by
  simp only [convert_time_to_sec, paced_tick, Int.cast_natCast, Int.cast_zero, zero_div,
    add_zero, sub_zero]

theorem paced_index (count j : Nat) (tj : Tick)
    (h : (paced_session count).ticks[j]? = some tj) : j < count ∧ tj = paced_tick j := by
  simp only [paced_session, List.getElem?_map, Option.map_eq_some'] at h
  obtain ⟨a, ha, rfl⟩ := h
  rw [List.getElem?_eq_some] at ha
  obtain ⟨hlt, ha⟩ := ha
  simp only [List.length_range] at hlt
  simp only [List.getElem_range] at ha
  subst ha
  exact ⟨hlt, rfl⟩

/-- C3, witness: with `-e 100 -d 5` and ticks paced at 100 ms, of 60 ticks
offered the loop consumes 50: the 50th is the first to reach 5.0 seconds. -/
theorem stops_at_first_crossing_witness :
    (cmdline libc_dec ["power_gadget", "-e", "100", "-d", "5"] one_node).cfg.duration = 5 ∧
    (do_print_energy_info rapl_pkg_only libc_dec.localtime
      (cmdline libc_dec ["power_gadget", "-e", "100", "-d", "5"] one_node).cfg
      (paced_session 60)).finished = true ∧
    (do_print_energy_info rapl_pkg_only libc_dec.localtime
      (cmdline libc_dec ["power_gadget", "-e", "100", "-d", "5"] one_node).cfg
      (paced_session 60)).ticks.length = 50 := by
  have hd : (cmdline libc_dec ["power_gadget", "-e", "100", "-d", "5"] one_node).cfg.duration
      = 5 := by decide
  have hk : (paced_session 60).ticks[49]? = some (paced_tick 49) := by
    simp [paced_session, List.getElem?_map, List.getElem?_range]
  have h := stops_at_first_crossing rapl_pkg_only libc_dec.localtime
    (cmdline libc_dec ["power_gadget", "-e", "100", "-d", "5"] one_node).cfg
    (paced_session 60) 49 (paced_tick 49) hk
    (by
      rw [hd]
      show (5 : ℚ) ≤ convert_time_to_sec (paced_tick 49).tv_end - convert_time_to_sec ⟨0, 0⟩
      rw [paced_total]
      norm_num)
    (by
      intro j tj hj htj
      obtain ⟨_, rfl⟩ := paced_index 60 j tj htj
      rw [hd]
      show convert_time_to_sec (paced_tick j).tv_end - convert_time_to_sec ⟨0, 0⟩ < 5
      rw [paced_total]
      have ha : (j + 1) / 10 ≤ 4 := by omega
      have hb : (j + 1) % 10 ≤ 9 := by omega
      have ha2 : (((j + 1) / 10 : Nat) : ℚ) ≤ 4 := by exact_mod_cast ha
      have hb2 : (((j + 1) % 10 : Nat) : ℚ) ≤ 9 := by exact_mod_cast hb
      push_cast
      linarith)
  exact ⟨hd, h.1, h.2.1⟩

/-- C4: for every node count and every answer of `is_supported_domain`, the
header line is its columns each followed by a comma, then a newline; the columns
are time, elapsed, and per node the frequency column followed by one column per
supported domain in the order Package, PP0, PP1, DRAM, which makes
`1 + 1 + num_node * (1 + number of supported domains)` columns.  Every data row
has the same shape and the same number of fields, in the same order. -/
theorem header_and_row_columns (R : Rapl) (localtime : Int → Tm) (cfg : Config)
    (w : Session) :
    (do_print_energy_info R localtime cfg w).header =
      joinFields (spec_header_columns R cfg.num_node) ++ "\n" ∧
    fields (do_print_energy_info R localtime cfg w).header =
      spec_header_columns R cfg.num_node ∧
    (fields (do_print_energy_info R localtime cfg w).header).length =
      1 + 1 + cfg.num_node * (1 + (supported_domains R).length) ∧
    ∀ (i : Nat) (o : TickOut), (do_print_energy_info R localtime cfg w).ticks[i]? = some o →
      ∃ t : Tick, w.ticks[i]? = some t ∧
        o.row = joinFields (spec_row_fields R cfg.num_node
          (convert_time_to_string localtime t.tv_end) o.total_elapsed_time t.freq
          o.power_watt) ++ "\n" ∧
        fields o.row = spec_row_fields R cfg.num_node
          (convert_time_to_string localtime t.tv_end) o.total_elapsed_time t.freq
          o.power_watt ∧
        (fields o.row).length =
          1 + 1 + cfg.num_node * (1 + (supported_domains R).length) := by
  have hh : (do_print_energy_info R localtime cfg w).header = print_header R cfg.num_node :=
    rfl
  refine ⟨by rw [hh, print_header_eq], by rw [hh, fields_print_header],
    by rw [hh, fields_print_header, length_spec_header_columns], ?_⟩
  intro i o ho
  obtain ⟨t, _, _, h1, _, _, _, _, h6, _⟩ := do_print_at R localtime cfg w i o ho
  have hf := fields_print_row R cfg.num_node (convert_time_to_string localtime t.tv_end)
    o.total_elapsed_time t.freq o.power_watt (noComma_convert_time_to_string _ _)
  refine ⟨t, h1, by rw [h6, print_row_eq], by rw [h6, hf], ?_⟩
  rw [h6, hf, length_spec_row_fields]

theorem fmt_02_digits (n : Nat) (h : n < 100) :
    fmt_02 n = String.mk [Nat.digitChar (n / 10), Nat.digitChar (n % 10)] := by
  unfold fmt_02
  rw [repr_digits]
  by_cases h1 : n < 10
  · have h0 : n / 10 = 0 := Nat.div_eq_of_lt h1
    have h2 : n % 10 = n := Nat.mod_eq_of_lt h1
    simp only [h1, if_true, h0, h2]
    rfl
  · simp only [h1, if_false, h, if_true]

theorem fmt_d_natCast (u : Nat) : fmt_d (u : Int) = Nat.repr u := by
  unfold fmt_d
  have h : ¬ ((u : Int) < 0) := by omega
  simp only [h, if_false, Int.toNat_natCast]

/-- C8 (amended): for every timestamp with `0 <= tv_usec < 1000000` the time
field is the local hour, minute and second as two digits each, separated by
colons, then a colon and the millisecond count `tv_usec / 1000` in decimal
without leading zeros: one digit below 10, two digits below 100, three digits
otherwise. -/
theorem convert_time_to_string_form (localtime : Int → Tm) (tv : Timeval)
    (h0 : 0 ≤ tv.tv_usec) (h1 : tv.tv_usec < 1000000) :
    tv.tv_usec.toNat / 1000 < 1000 ∧
    convert_time_to_string localtime tv =
      String.mk
        [Nat.digitChar ((localtime tv.tv_sec).tm_hour.val / 10),
         Nat.digitChar ((localtime tv.tv_sec).tm_hour.val % 10), ':',
         Nat.digitChar ((localtime tv.tv_sec).tm_min.val / 10),
         Nat.digitChar ((localtime tv.tv_sec).tm_min.val % 10), ':',
         Nat.digitChar ((localtime tv.tv_sec).tm_sec.val / 10),
         Nat.digitChar ((localtime tv.tv_sec).tm_sec.val % 10), ':'] ++
      String.mk
        (if tv.tv_usec.toNat / 1000 < 10 then [Nat.digitChar (tv.tv_usec.toNat / 1000)]
         else if tv.tv_usec.toNat / 1000 < 100 then
           [Nat.digitChar (tv.tv_usec.toNat / 1000 / 10),
            Nat.digitChar (tv.tv_usec.toNat / 1000 % 10)]
         else
           [Nat.digitChar (tv.tv_usec.toNat / 1000 / 100),
            Nat.digitChar (tv.tv_usec.toNat / 1000 / 10 % 10),
            Nat.digitChar (tv.tv_usec.toNat / 1000 % 10)]) := by
  obtain ⟨sec, usec⟩ := tv
  simp only at h0 h1 ⊢
  obtain ⟨u, rfl⟩ := Int.eq_ofNat_of_zero_le h0
  have hu : u < 1000000 := by omega
  have hms : u / 1000 < 1000 := by omega
  refine ⟨by simpa using hms, ?_⟩
  have hdiv : Int.tdiv (u : Int) 1000 = ((u / 1000 : Nat) : Int) := rfl
  unfold convert_time_to_string strftime_HMS
  simp only [hdiv, fmt_d_natCast, Int.toNat_natCast]
  rw [fmt_02_digits _ (by omega : (localtime sec).tm_hour.val < 100),
    fmt_02_digits _ (by omega : (localtime sec).tm_min.val < 100),
    fmt_02_digits _ (by omega : (localtime sec).tm_sec.val < 100), repr_digits (u / 1000)]
  have h100 : u / 1000 / 100 < 10 := by omega
  apply String.ext
  by_cases c1 : u / 1000 < 10
  · simp [c1, String.data_append]
  · by_cases c2 : u / 1000 < 100
    · simp [c1, c2, String.data_append]
    · simp [c1, c2, String.data_append, toDigits_small _ h100]

/-- C8, witness: at 12:34:56 and 789000 microseconds the field is `12:34:56:789`. -/
theorem convert_time_to_string_form_witness :
    convert_time_to_string libc_dec.localtime ⟨45296, 789000⟩ = "12:34:56:789" := by
  have h := (convert_time_to_string_form libc_dec.localtime ⟨45296, 789000⟩
    (by decide) (by decide)).2
  rw [h]
  decide

/-- C8, as stated, fails: at 12:34:56 and 5000 microseconds (5 ms) the field is
`12:34:56:5`, ten characters, not the three-digit form `12:34:56:005`. -/
theorem convert_time_to_string_unpadded :
    (0 : Int) ≤ 5000 ∧ (5000 : Int) < 1000000 ∧
    convert_time_to_string libc_dec.localtime ⟨45296, 5000⟩ = "12:34:56:5" ∧
    convert_time_to_string libc_dec.localtime ⟨45296, 5000⟩ ≠
      strftime_HMS (libc_dec.localtime 45296) ++ ":" ++ zeroPad 3 5 ∧
    (convert_time_to_string libc_dec.localtime ⟨45296, 5000⟩).length ≠ 12 := by
  decide

/-! ## The claims about the command line and `main` -/

theorem getopt_returns_e (s : String) (rest : List String) :
    getopt_returns "e:d:".toList ⟨[], "-e" :: s :: rest⟩ =
      (⟨'e', s⟩, ⟨[], rest⟩) :: getopt_returns "e:d:".toList ⟨[], rest⟩ := by
  rfl

theorem getopt_returns_d (s : String) (rest : List String) :
    getopt_returns "e:d:".toList ⟨[], "-d" :: s :: rest⟩ =
      (⟨'d', s⟩, ⟨[], rest⟩) :: getopt_returns "e:d:".toList ⟨[], rest⟩ := by
  rfl

theorem getopt_returns_h (rest : List String) :
    getopt_returns "e:d:".toList ⟨[], "-h" :: rest⟩ =
      (⟨'?', ""⟩, ⟨[], rest⟩) :: getopt_returns "e:d:".toList ⟨[], rest⟩ := by
  rfl

theorem getopt_returns_nil : getopt_returns "e:d:".toList ⟨[], []⟩ = [] := by
  rfl

theorem getopt_final_e (s : String) (rest : List String) :
    getopt_final "e:d:".toList ⟨[], "-e" :: s :: rest⟩ =
      getopt_final "e:d:".toList ⟨[], rest⟩ := by
  rfl

theorem getopt_final_d (s : String) (rest : List String) :
    getopt_final "e:d:".toList ⟨[], "-d" :: s :: rest⟩ =
      getopt_final "e:d:".toList ⟨[], rest⟩ := by
  rfl

theorem getopt_final_nil : getopt_final "e:d:".toList ⟨[], []⟩ = ⟨[], []⟩ := by
  rfl

/-- When `init_rapl` fails `main` stops before `cmdline`. -/
theorem main_init_failed (R : Rapl) (L : Libc) (w : World) (argv : List String)
    (h : w.init_ret ≠ 0) :
    (main R L w argv).calls = [Call.init_rapl, Call.terminate_rapl] ∧
    (main R L w argv).status = some R.MY_ERROR := by
  unfold main
  simp [h]

theorem main_rejected (R : Rapl) (L : Libc) (w : World) (argv : List String) (ret : Int)
    (hinit : w.init_ret = 0)
    (hc : (cmdline L argv { num_node := w.nodes, delay_us := 1000000, duration := 360000 }).outcome
      = Outcome.returned ret) (hret : ret ≠ 0) :
    (main R L w argv).calls =
      [Call.init_rapl, Call.get_num_rapl_nodes_pkg, Call.terminate_rapl] ∧
    (main R L w argv).status = some ret ∧
    (main R L w argv).stdout =
      (cmdline L argv { num_node := w.nodes, delay_us := 1000000, duration := 360000 }).out := by
  unfold main
  simp only [hinit, ne_eq, not_true_eq_false, if_false, hc, hret, not_false_eq_true, if_true]
  exact ⟨trivial, trivial, trivial⟩

theorem main_accepted (R : Rapl) (L : Libc) (w : World) (argv : List String)
    (hinit : w.init_ret = 0)
    (hc : (cmdline L argv { num_node := w.nodes, delay_us := 1000000, duration := 360000 }).outcome
      = Outcome.returned 0) :
    Call.do_print_energy_info ∈ (main R L w argv).calls := by
  unfold main
  simp only [hinit, ne_eq, not_true_eq_false, if_false, hc]
  split <;> simp

/-- What `cmdline` does when the only option is `-e` with the argument `s`. -/
theorem cmdline_only_e (L : Libc) (prog s : String) (cfg : Config) :
    cmdline L [prog, "-e", s] cfg =
      if to_uint64 (L.atoi s) > 50 then
        ⟨Outcome.returned 0,
          { cfg with delay_us := (to_uint64 (L.atoi s) * 1000) % 2 ^ 64 }, "", ⟨[], []⟩⟩
      else
        ⟨Outcome.returned (-1), cfg, "Sampling delay must be greater than 50 ms.\n",
          ⟨[], []⟩⟩ := by
  unfold cmdline cmdline_at getopt_start
  simp only [List.tail_cons, getopt_returns_e, getopt_final_e, getopt_returns_nil,
    getopt_final_nil]
  simp only [cmdline_opts, if_true]

/-- What `cmdline` does when the only option is `-d` with the argument `s`. -/
theorem cmdline_only_d (L : Libc) (prog s : String) (cfg : Config) :
    cmdline L [prog, "-d", s] cfg =
      if L.atof s ≤ 0 then
        ⟨Outcome.returned (-1), { cfg with duration := L.atof s },
          "Duration must be greater than 0 seconds.\n", ⟨[], []⟩⟩
      else ⟨Outcome.returned 0, { cfg with duration := L.atof s }, "", ⟨[], []⟩⟩ := by
  unfold cmdline cmdline_at getopt_start
  simp only [List.tail_cons, getopt_returns_d, getopt_final_d, getopt_returns_nil,
    getopt_final_nil]
  have h : ¬ ('d' = 'e') := by decide
  simp only [cmdline_opts, h, if_false, if_true]

/-- The part of C5 that holds: an argument that reads as `v` with `0 <= v <= 50`
is rejected, and one with `v > 50` (an `int`) is accepted with
`delay_us = 1000 * v`. -/
theorem cmdline_e_nonneg (L : Libc) (prog s : String) (cfg : Config) (v : Int)
    (hv : L.atoi s = v) (h0 : 0 ≤ v) (hmax : v < 2 ^ 31) :
    (v ≤ 50 → (cmdline L [prog, "-e", s] cfg).outcome = Outcome.returned (-1) ∧
      (cmdline L [prog, "-e", s] cfg).cfg.delay_us = cfg.delay_us) ∧
    (50 < v → (cmdline L [prog, "-e", s] cfg).outcome = Outcome.returned 0 ∧
      ((cmdline L [prog, "-e", s] cfg).cfg.delay_us : Int) = 1000 * v) := by
  obtain ⟨u, rfl⟩ := Int.eq_ofNat_of_zero_le h0
  have hu : u < 2 ^ 31 := by exact_mod_cast hmax
  have e : to_uint64 (L.atoi s) = u := by
    rw [hv]
    unfold to_uint64
    have : ((u : Int) % 2 ^ 64) = (u : Int) := Int.emod_eq_of_lt (by omega) (by omega)
    rw [this, Int.toNat_natCast]
  rw [cmdline_only_e, e]
  constructor
  · intro h
    have : ¬ (u > 50) := by omega
    simp [this]
  · intro h
    have h2 : u > 50 := by omega
    have h3 : u * 1000 % 2 ^ 64 = u * 1000 := Nat.mod_eq_of_lt (by omega)
    simp only [h2, if_true, h3]
    refine ⟨trivial, ?_⟩
    push_cast
    ring

/-- C5, the code at the failing input `-e -5`: `atoi` gives `-5`, the
conversion to `uint64_t` gives `2 ^ 64 - 5`, which is greater than 50, so
`cmdline` returns 0 with `delay_us = 2 ^ 64 - 5000` and `main` goes on to
`do_print_energy_info`. -/
theorem cmdline_e_negative_accepted :
    libc_dec.atoi "-5" = -5 ∧
    (cmdline libc_dec ["power_gadget", "-e", "-5"] one_node).outcome = Outcome.returned 0 ∧
    (cmdline libc_dec ["power_gadget", "-e", "-5"] one_node).cfg.delay_us =
      18446744073709546616 ∧
    Call.do_print_energy_info ∈
      (main rapl_pkg_only libc_dec ⟨0, 1, two_reads 100 150⟩
        ["power_gadget", "-e", "-5"]).calls := by
  exact ⟨by decide, by decide, by decide, main_accepted _ _ _ _ rfl (by decide)⟩

/-- C6: when the only option is `-d` with an argument that reads as the number
`x`, `cmdline` returns non-zero if and only if `x <= 0`; then `main` never calls
`do_print_energy_info`; and when `x > 0` it returns 0 with the duration set to
`x` (the delay is left as it was). -/
theorem cmdline_d_positive_only (R : Rapl) (L : Libc) (w : World) (prog s : String)
    (cfg : Config) (x : ℚ) (hx : L.atof s = x) :
    ((cmdline L [prog, "-d", s] cfg).outcome ≠ Outcome.returned 0 ↔ x ≤ 0) ∧
    (x ≤ 0 → (cmdline L [prog, "-d", s] cfg).outcome = Outcome.returned (-1) ∧
      Call.do_print_energy_info ∉ (main R L w [prog, "-d", s]).calls ∧
      (w.init_ret = 0 → (main R L w [prog, "-d", s]).status = some (-1))) ∧
    (0 < x → (cmdline L [prog, "-d", s] cfg).outcome = Outcome.returned 0 ∧
      (cmdline L [prog, "-d", s] cfg).cfg.duration = x ∧
      (cmdline L [prog, "-d", s] cfg).cfg.delay_us = cfg.delay_us) := by
  subst hx
  refine ⟨?_, ?_, ?_⟩
  · rw [cmdline_only_d]
    by_cases h : L.atof s ≤ 0 <;> simp [h]
  · intro h
    have hc : ∀ c : Config, (cmdline L [prog, "-d", s] c).outcome = Outcome.returned (-1) := by
      intro c
      rw [cmdline_only_d]
      simp [h]
    refine ⟨hc cfg, ?_, ?_⟩
    · by_cases hinit : w.init_ret = 0
      · rw [(main_rejected R L w _ (-1) hinit (hc _) (by decide)).1]
        decide
      · rw [(main_init_failed R L w _ hinit).1]
        decide
    · intro hinit
      exact (main_rejected R L w _ (-1) hinit (hc _) (by decide)).2.1
  · intro h
    have h2 : ¬ (L.atof s ≤ 0) := not_le.2 h
    rw [cmdline_only_d]
    simp [h2]

/-- C6, witness: `-d 0` is rejected. -/
theorem cmdline_d_positive_only_witness :
    libc_dec.atof "0" = 0 ∧
    (cmdline libc_dec ["power_gadget", "-d", "0"] one_node).outcome = Outcome.returned (-1) ∧
    Call.do_print_energy_info ∉
      (main rapl_pkg_only libc_dec ⟨0, 1, two_reads 100 150⟩ ["power_gadget", "-d", "0"]).calls :=
  have h := cmdline_d_positive_only rapl_pkg_only libc_dec ⟨0, 1, two_reads 100 150⟩
    "power_gadget" "0" one_node 0 (by decide)
  ⟨by decide, (h.2.1 (le_refl 0)).1, (h.2.1 (le_refl 0)).2.1⟩

/-- C7, the code at `-h`: the option string `"e:d:"` does not hold `h`, so
`getopt` returns `?` for it and the `default` branch runs: `cmdline` prints the
usage text and returns -1, and `main` returns that non-zero value (or `MY_ERROR`
when `init_rapl` failed).  The branch `case 'h'`, which would exit with status
0, is only taken on a return `h` that `getopt` never gives. -/
theorem cmdline_h_is_rejected (R : Rapl) (L : Libc) (w : World) (prog : String)
    (rest : List String) (cfg : Config) (st st2 : GetoptState) :
    optLookup "e:d:".toList 'h' = none ∧
    (cmdline L (prog :: "-h" :: rest) cfg).outcome = Outcome.returned (-1) ∧
    (cmdline L (prog :: "-h" :: rest) cfg).out = usage prog ∧
    (main R L w (prog :: "-h" :: rest)).status =
      (if w.init_ret ≠ 0 then some R.MY_ERROR else some (-1)) ∧
    (cmdline_opts L prog st cfg [(⟨'h', ""⟩, st2)]).outcome = Outcome.exited 0 := by
  have hc : ∀ c : Config, cmdline L (prog :: "-h" :: rest) c =
      ⟨Outcome.returned (-1), c, usage prog, ⟨[], rest⟩⟩ := by
    intro c
    unfold cmdline cmdline_at getopt_start
    simp only [List.tail_cons, getopt_returns_h, List.headD_cons]
    rfl
  refine ⟨by decide, by rw [hc], by rw [hc], ?_, rfl⟩
  by_cases hinit : w.init_ret = 0
  · rw [(main_rejected R L w _ (-1) hinit (by rw [hc]) (by decide)).2.1]
    simp [hinit]
  · rw [(main_init_failed R L w _ hinit).2]
    simp [hinit]

/-- C9 (amended): for every argument vector that `cmdline` rejects, `main` calls
`init_rapl` and `get_num_rapl_nodes_pkg`, then `cmdline`, then `terminate_rapl`,
and returns the non-zero value of `cmdline`; `do_print_energy_info`, the only
place of an energy or frequency read, is never called. -/
theorem rejected_config_no_sampling (R : Rapl) (L : Libc) (w : World) (argv : List String)
    (ret : Int) (hinit : w.init_ret = 0)
    (hrej : (cmdline L argv
      { num_node := w.nodes, delay_us := 1000000, duration := 360000 }).outcome =
        Outcome.returned ret)
    (hret : ret ≠ 0) :
    (main R L w argv).calls =
      [Call.init_rapl, Call.get_num_rapl_nodes_pkg, Call.terminate_rapl] ∧
    Call.do_print_energy_info ∉ (main R L w argv).calls ∧
    (main R L w argv).status = some ret ∧
    (main R L w argv).stdout =
      (cmdline L argv { num_node := w.nodes, delay_us := 1000000, duration := 360000 }).out := by
  obtain ⟨h1, h2, h3⟩ := main_rejected R L w argv ret hinit hrej hret
  refine ⟨h1, ?_, h2, h3⟩
  rw [h1]
  decide

/-- C9, witness: `-e 30` is rejected; `main` returns -1 without sampling. -/
theorem rejected_config_no_sampling_witness :
    (main rapl_pkg_only libc_dec ⟨0, 1, two_reads 100 150⟩ ["power_gadget", "-e", "30"]).calls =
      [Call.init_rapl, Call.get_num_rapl_nodes_pkg, Call.terminate_rapl] ∧
    (main rapl_pkg_only libc_dec ⟨0, 1, two_reads 100 150⟩
      ["power_gadget", "-e", "30"]).status = some (-1) :=
  have h := rejected_config_no_sampling rapl_pkg_only libc_dec ⟨0, 1, two_reads 100 150⟩
    ["power_gadget", "-e", "30"] (-1) rfl (by decide) (by decide)
  ⟨h.1, h.2.2.1⟩

/-- C9, as stated, fails: `-e 30` is rejected by `cmdline`, and yet the run of
`main` has called `init_rapl` and `get_num_rapl_nodes_pkg` before it exits. -/
theorem rejected_config_after_init :
    (cmdline libc_dec ["power_gadget", "-e", "30"] one_node).outcome = Outcome.returned (-1) ∧
    (main rapl_pkg_only libc_dec ⟨0, 1, two_reads 100 150⟩
      ["power_gadget", "-e", "30"]).status = some (-1) ∧
    Call.init_rapl ∈ (main rapl_pkg_only libc_dec ⟨0, 1, two_reads 100 150⟩
      ["power_gadget", "-e", "30"]).calls ∧
    Call.get_num_rapl_nodes_pkg ∈ (main rapl_pkg_only libc_dec ⟨0, 1, two_reads 100 150⟩
      ["power_gadget", "-e", "30"]).calls := by
  have h := main_rejected rapl_pkg_only libc_dec ⟨0, 1, two_reads 100 150⟩
    ["power_gadget", "-e", "30"] (-1) rfl (by decide) (by decide)
  refine ⟨by decide, h.2.1, ?_, ?_⟩ <;> rw [h.1] <;> decide

/-- Apart from `num_node`, which it leaves alone, the run of `cmdline` on given
`getopt` returns either keeps or overwrites each global, whatever it was. -/
theorem cmdline_opts_shape (L : Libc) (prog : String) (final : GetoptState) :
    ∀ gs : List (GetoptRet × GetoptState),
    ∃ (oc : Outcome) (out : String) (st : GetoptState) (fd : Nat → Nat) (fq : ℚ → ℚ),
      (∀ x, fd (fd x) = fd x) ∧ (∀ x, fq (fq x) = fq x) ∧
      ∀ c : Config, cmdline_opts L prog final c gs =
        ⟨oc, { num_node := c.num_node, delay_us := fd c.delay_us, duration := fq c.duration },
          out, st⟩ := by
  intro gs
  induction gs with
  | nil =>
    exact ⟨Outcome.returned 0, "", final, id, id, fun _ => rfl, fun _ => rfl, fun _ => rfl⟩
  | cons g gs ih =>
    obtain ⟨oc, out, st, fd, fq, hfd, hfq, h⟩ := ih
    have hde : ¬ ('d' = 'e') := by decide
    have hhe : ¬ ('h' = 'e') := by decide
    have hhd : ¬ ('h' = 'd') := by decide
    by_cases he : g.1.opt = 'e'
    · by_cases hv : to_uint64 (L.atoi g.1.optarg) > 50
      · refine ⟨oc, out, st, fun _ => fd ((to_uint64 (L.atoi g.1.optarg) * 1000) % 2 ^ 64),
          fq, fun _ => rfl, hfq, fun c => ?_⟩
        simp only [cmdline_opts, he, if_true, hv, h]
      · refine ⟨Outcome.returned (-1), "Sampling delay must be greater than 50 ms.\n", g.2,
          id, id, fun _ => rfl, fun _ => rfl, fun c => ?_⟩
        simp only [cmdline_opts, he, if_true, hv, if_false, id]
    · by_cases hd : g.1.opt = 'd'
      · by_cases hv : L.atof g.1.optarg ≤ 0
        · refine ⟨Outcome.returned (-1), "Duration must be greater than 0 seconds.\n", g.2,
            id, fun _ => L.atof g.1.optarg, fun _ => rfl, fun _ => rfl, fun c => ?_⟩
          simp only [cmdline_opts, hd, hde, if_false, if_true, hv, id]
        · refine ⟨oc, out, st, fd, fun _ => fq (L.atof g.1.optarg), hfd, fun _ => rfl,
            fun c => ?_⟩
          simp only [cmdline_opts, hd, hde, if_false, if_true, hv, h]
      · by_cases hh : g.1.opt = 'h'
        · refine ⟨Outcome.exited 0, usage prog, g.2, id, id, fun _ => rfl, fun _ => rfl,
            fun c => ?_⟩
          simp only [cmdline_opts, hh, hhe, hhd, if_false, if_true, id]
        · refine ⟨Outcome.returned (-1), usage prog, g.2, id, id, fun _ => rfl,
            fun _ => rfl, fun c => ?_⟩
          simp only [cmdline_opts, he, if_false, hd, hh, id]

/-- Once `getopt` has nothing left to scan, a further call of `cmdline` in the
same process returns 0 at once and leaves the globals as they are. -/
theorem cmdline_at_exhausted (L : Libc) (argv : List String) (cfg : Config) :
    cmdline_at L argv ⟨[], []⟩ cfg = ⟨Outcome.returned 0, cfg, "", ⟨[], []⟩⟩ := by
  unfold cmdline_at
  simp only [getopt_returns_nil, getopt_final_nil, cmdline_opts]

/-- C10 (amended): for every argument vector and every starting configuration,
a second run of `cmdline` on the same argument vector, with the scan of `getopt`
restarted at the beginning of the vector and from the configuration the first
run left, ends as the first run ended and leaves the delay and the duration (and
the node count) the first run left. -/
theorem cmdline_idempotent (L : Libc) (argv : List String) (cfg : Config) :
    (cmdline_at L argv (getopt_start argv) (cmdline L argv cfg).cfg).outcome =
      (cmdline L argv cfg).outcome ∧
    (cmdline_at L argv (getopt_start argv) (cmdline L argv cfg).cfg).cfg.delay_us =
      (cmdline L argv cfg).cfg.delay_us ∧
    (cmdline_at L argv (getopt_start argv) (cmdline L argv cfg).cfg).cfg.duration =
      (cmdline L argv cfg).cfg.duration ∧
    (cmdline_at L argv (getopt_start argv) (cmdline L argv cfg).cfg).cfg.num_node =
      (cmdline L argv cfg).cfg.num_node ∧
    (cmdline_at L argv (getopt_start argv) (cmdline L argv cfg).cfg).out =
      (cmdline L argv cfg).out := by
  unfold cmdline cmdline_at
  obtain ⟨oc, out, st, fd, fq, hfd, hfq, h⟩ :=
    cmdline_opts_shape L (argv.headD "") (getopt_final "e:d:".toList (getopt_start argv))
      (getopt_returns "e:d:".toList (getopt_start argv))
  simp only [h, hfd, hfq, and_self]

/-- C10, as stated, fails: the source never resets `getopt`, so after the first
run on `-e 30` has returned -1 the second run, in the state of `getopt` and the
configuration the first run left, gets `-1` from `getopt` at once and returns 0:
the rejected vector is accepted. -/
theorem cmdline_second_run_accepts :
    (cmdline libc_dec ["power_gadget", "-e", "30"] one_node).outcome =
      Outcome.returned (-1) ∧
    (cmdline libc_dec ["power_gadget", "-e", "30"] one_node).getopt_state = ⟨[], []⟩ ∧
    (cmdline_at libc_dec ["power_gadget", "-e", "30"]
      (cmdline libc_dec ["power_gadget", "-e", "30"] one_node).getopt_state
      (cmdline libc_dec ["power_gadget", "-e", "30"] one_node).cfg).outcome =
      Outcome.returned 0 ∧
    (cmdline_at libc_dec ["power_gadget", "-e", "30"]
      (cmdline libc_dec ["power_gadget", "-e", "30"] one_node).getopt_state
      (cmdline libc_dec ["power_gadget", "-e", "30"] one_node).cfg).outcome ≠
      (cmdline libc_dec ["power_gadget", "-e", "30"] one_node).outcome := by
  decide

end PowerGadget
